import Mathlib

/-!
Shallow embedding of the PDSC device parser
(src/rust/cmsis-pack/src/pdsc/device.rs) and proofs about it.

XML nodes are modelled as trees of elements carrying a tag name, an
attribute list and a list of element children, matching the navigation
interface the parser uses (tag local name, attribute lookup, ordered
child iteration).  Machine integers (u8, u32, u64, usize) are modelled
as Nat with explicit width bounds enforced at the attribute parsers,
mirroring the failing parses of out-of-range values.  Fallible Rust
functions returning anyhow::Result are modelled with Except String,
carrying the formatted error message.
-/

namespace Pdsc

/-- An XML element: tag local name, attributes in document order, element
children in document order. -/
inductive XNode where
  | mk (tag : String) (attrs : List (String × String)) (children : List XNode)

/-- Tag local name of an element. -/
def XNode.tag : XNode → String
  | .mk t _ _ => t

/-- Attribute list of an element. -/
def XNode.attrs : XNode → List (String × String)
  | .mk _ a _ => a

/-- Element children, in document order. -/
def XNode.children : XNode → List XNode
  | .mk _ _ c => c

/-- Attribute lookup by name (roxmltree's Node::attribute; attribute names
are unique in well-formed XML, so first match is the match). -/
def XNode.attribute (e : XNode) (name : String) : Option String :=
  (e.attrs.find? (fun p => p.1 == name)).map (·.2)

/-- Value of one digit character in the given base, if it is one. -/
def digitVal? (base : Nat) (c : Char) : Option Nat :=
  let v :=
    if '0' ≤ c ∧ c ≤ '9' then some (c.toNat - '0'.toNat)
    else if 'a' ≤ c ∧ c ≤ 'f' then some (c.toNat - 'a'.toNat + 10)
    else if 'A' ≤ c ∧ c ≤ 'F' then some (c.toNat - 'A'.toNat + 10)
    else none
  v.bind (fun d => if d < base then some d else none)

/-- Digit-string to Nat in the given base; empty or malformed input fails. -/
def digitsToNat (base : Nat) (cs : List Char) : Option Nat :=
  if cs.isEmpty then none
  else cs.foldl (fun acc c => acc.bind fun n => (digitVal? base c).map fun d => n * base + d)
    (some 0)

/-- Modelled from the spec: the numeric attribute scalar parsers of
utils::prelude (attr_parse for u8/u32/usize), which convert a base-10
digit string into an unsigned integer of the stated width; a missing
attribute or a malformed / out-of-range value is a recoverable failure.
Widths are passed as an exclusive bound. -/
def attr_nat? (e : XNode) (a : String) (bound : Nat) : Option Nat :=
  (e.attribute a).bind fun s =>
    (digitsToNat 10 s.data).bind fun n => if n < bound then some n else none

/-- Modelled from the spec: parse_hex accepts an optional 0x / 0X prefix
for base 16, otherwise base 10. -/
def parse_hex_str (s : String) : Option Nat :=
  match s.data with
  | '0' :: 'x' :: rest => digitsToNat 16 rest
  | '0' :: 'X' :: rest => digitsToNat 16 rest
  | cs => digitsToNat 10 cs

/-- Modelled from the spec: attr_parse_hex of utils::prelude, a
width-bounded hex-or-decimal integer attribute. -/
def attr_hex? (e : XNode) (a : String) (bound : Nat) : Option Nat :=
  (e.attribute a).bind fun s =>
    (parse_hex_str s).bind fun n => if n < bound then some n else none

/-- Modelled from the spec: the Except-returning form of attr_parse used
where an attribute is required; the message is not relied upon by any
claim about required numeric attributes. -/
def attr_nat (e : XNode) (a : String) (bound : Nat) : Except String Nat :=
  match attr_nat? e a bound with
  | some n => .ok n
  | none => .error ("missing or invalid attribute " ++ a)

/-- Modelled from the spec: the Except-returning form of attr_parse_hex
used where a hex attribute is required. -/
def attr_hex (e : XNode) (a : String) (bound : Nat) : Except String Nat :=
  match attr_hex? e a bound with
  | some n => .ok n
  | none => .error ("missing or invalid attribute " ++ a)

/-- The closed set of ARM core identifiers (enum Core in device.rs). -/
inductive Core where
  | Any
  | CortexM0
  | CortexM0Plus
  | CortexM1
  | CortexM3
  | CortexM4
  | CortexM7
  | CortexM23
  | CortexM33
  | CortexM35P
  | CortexM55
  | CortexM85
  | StarMC1
  | SC000
  | SC300
  | ARMV8MBL
  | ARMV8MML
  | ARMV81MML
  | CortexR4
  | CortexR5
  | CortexR7
  | CortexR8
  | CortexA5
  | CortexA7
  | CortexA8
  | CortexA9
  | CortexA15
  | CortexA17
  | CortexA32
  | CortexA35
  | CortexA53
  | CortexA57
  | CortexA72
  | CortexA73
deriving DecidableEq

/-- FromStr for Core, translated arm by arm from device.rs. -/
def Core.from_str (from_ : String) : Except String Core :=
  if from_ == "Cortex-M0" then .ok Core.CortexM0
  else if from_ == "Cortex-M0+" then .ok Core.CortexM0Plus
  else if from_ == "Cortex-M1" then .ok Core.CortexM1
  else if from_ == "Cortex-M3" then .ok Core.CortexM3
  else if from_ == "Cortex-M4" then .ok Core.CortexM4
  else if from_ == "Cortex-M7" then .ok Core.CortexM7
  else if from_ == "Cortex-M23" then .ok Core.CortexM23
  else if from_ == "Cortex-M33" then .ok Core.CortexM33
  else if from_ == "Cortex-M35P" then .ok Core.CortexM35P
  else if from_ == "Cortex-M55" then .ok Core.CortexM55
  else if from_ == "Cortex-M85" then .ok Core.CortexM85
  else if from_ == "Star-MC1" then .ok Core.StarMC1
  else if from_ == "SC000" then .ok Core.SC000
  else if from_ == "SC300" then .ok Core.SC300
  else if from_ == "ARMV8MBL" then .ok Core.ARMV8MBL
  else if from_ == "ARMV8MML" then .ok Core.ARMV8MML
  else if from_ == "Cortex-R4" then .ok Core.CortexR4
  else if from_ == "Cortex-R5" then .ok Core.CortexR5
  else if from_ == "Cortex-R7" then .ok Core.CortexR7
  else if from_ == "Cortex-R8" then .ok Core.CortexR8
  else if from_ == "Cortex-A5" then .ok Core.CortexA5
  else if from_ == "Cortex-A7" then .ok Core.CortexA7
  else if from_ == "Cortex-A8" then .ok Core.CortexA8
  else if from_ == "Cortex-A9" then .ok Core.CortexA9
  else if from_ == "Cortex-A15" then .ok Core.CortexA15
  else if from_ == "Cortex-A17" then .ok Core.CortexA17
  else if from_ == "Cortex-A32" then .ok Core.CortexA32
  else if from_ == "Cortex-A35" then .ok Core.CortexA35
  else if from_ == "Cortex-A53" then .ok Core.CortexA53
  else if from_ == "Cortex-A57" then .ok Core.CortexA57
  else if from_ == "Cortex-A72" then .ok Core.CortexA72
  else if from_ == "Cortex-A73" then .ok Core.CortexA73
  else if from_ == "*" then .ok Core.Any
  else .error ("Unknown core " ++ from_)

/-- FPU presence / precision (enum FPU in device.rs). -/
inductive FPU where
  | None
  | SinglePrecision
  | DoublePrecision
deriving DecidableEq

/-- FromStr for FPU, translated from device.rs. -/
def FPU.from_str (from_ : String) : Except String FPU :=
  if from_ == "FPU" then .ok FPU.SinglePrecision
  else if from_ == "SP_FPU" then .ok FPU.SinglePrecision
  else if from_ == "1" then .ok FPU.SinglePrecision
  else if from_ == "None" then .ok FPU.None
  else if from_ == "0" then .ok FPU.None
  else if from_ == "DP_FPU" then .ok FPU.DoublePrecision
  else if from_ == "2" then .ok FPU.DoublePrecision
  else .error ("Unknown fpu " ++ from_)

/-- MPU presence (enum MPU in device.rs). -/
inductive MPU where
  | NotPresent
  | Present
deriving DecidableEq

/-- FromStr for MPU, translated from device.rs. -/
def MPU.from_str (from_ : String) : Except String MPU :=
  if from_ == "MPU" then .ok MPU.Present
  else if from_ == "1" then .ok MPU.Present
  else if from_ == "None" then .ok MPU.NotPresent
  else if from_ == "0" then .ok MPU.NotPresent
  else .error ("Unknown fpu " ++ from_)

/-- Access port selector: by index (ADIv5) or by address (ADIv6);
default is Index 0. -/
inductive AccessPort where
  | Index (n : Nat)
  | Address (n : Nat)
deriving DecidableEq

/-- Default impl for AccessPort in device.rs. -/
def AccessPort.dfault : AccessPort := AccessPort.Index 0

/-- Optional Core attribute (attr_parse(e, a).ok()). -/
def attr_core? (e : XNode) (a : String) : Option Core :=
  (e.attribute a).bind fun s => (Core.from_str s).toOption

/-- Optional FPU attribute (attr_parse(e, a).ok()). -/
def attr_fpu? (e : XNode) (a : String) : Option FPU :=
  (e.attribute a).bind fun s => (FPU.from_str s).toOption

/-- Optional MPU attribute (attr_parse(e, a).ok()). -/
def attr_mpu? (e : XNode) (a : String) : Option MPU :=
  (e.attribute a).bind fun s => (MPU.from_str s).toOption

/-- NumberBool::from_str composed with Into for bool, translated from
device.rs (accepts true / 1 / false / 0). -/
def numberBool? (s : String) : Option Bool :=
  if s == "true" then some true
  else if s == "1" then some true
  else if s == "false" then some false
  else if s == "0" then some false
  else none

/-- Optional boolean attribute via NumberBool (attr_parse(e, a).ok()). -/
def attr_numberBool? (e : XNode) (a : String) : Option Bool :=
  (e.attribute a).bind numberBool?

/-- A resolved debug record (struct Debug in device.rs). -/
structure Debug where
  dp : Option Nat
  ap : Option AccessPort
  address : Option Nat
  svd : Option String
  name : Option String
  unit : Option Nat
  default_reset_sequence : Option String
deriving DecidableEq

/-- Accumulator for one debug element (struct DebugBuilder). -/
structure DebugBuilder where
  dp : Option Nat
  ap : Option AccessPort
  address : Option Nat
  svd : Option String
  name : Option String
  unit : Option Nat
  default_reset_sequence : Option String
deriving DecidableEq

/-- DebugBuilder::build: freeze the builder into a Debug record. -/
def DebugBuilder.build (s : DebugBuilder) : Debug :=
  { dp := s.dp, ap := s.ap, address := s.address, svd := s.svd,
    name := s.name, unit := s.unit,
    default_reset_sequence := s.default_reset_sequence }

/-- Rust str::starts_with on the character lists of the strings. -/
def strStartsWith (s pre : String) : Bool :=
  pre.data.isPrefixOf s.data

/-- The branch condition of DebugBuilder::from_elem_and_parent: the tag
names of the parent's children include accessportV1 or accessportV2. -/
def hasAccessPortChild (p : XNode) : Bool :=
  (p.children.map (·.tag)).contains "accessportV1"
    || (p.children.map (·.tag)).contains "accessportV2"

/-- DebugBuilder::from_elem_and_parent, translated from device.rs.  When
the parent has any accessportV1 / accessportV2 child, __apid is required
and resolved against the parent's children whose tag starts with
"accessportV"; the unreachable!() arm for a matching child that is
neither accessportV1 nor accessportV2 is modelled as a panic error. -/
def DebugBuilder.from_elem_and_parent (e p : XNode) : Except String DebugBuilder :=
  let dpap : Except String (Option Nat × Option AccessPort) :=
    if hasAccessPortChild p then
      match attr_nat e "__apid" (2 ^ 32) with
      | .error err => .error err
      | .ok apid =>
        match p.children.find? (fun c =>
            strStartsWith c.tag "accessportV"
              && (attr_nat? c "__apid" (2 ^ 32) == some apid)) with
        | none => .error ("Unable do find Access Port with id " ++ toString apid ++ ".")
        | some ap =>
          if ap.tag == "accessportV1" then
            .ok (attr_nat? ap "__dp" (2 ^ 8),
              (attr_nat? ap "index" (2 ^ 8)).map AccessPort.Index)
          else if ap.tag == "accessportV2" then
            .ok (attr_nat? ap "__dp" (2 ^ 8),
              (attr_hex? ap "address" (2 ^ 64)).map AccessPort.Address)
          else .error "panic: internal error: entered unreachable code"
    else
      .ok (attr_nat? e "__dp" (2 ^ 8),
        (attr_nat? e "__ap" (2 ^ 8)).map AccessPort.Index)
  dpap.map fun dpap =>
    { dp := dpap.1, ap := dpap.2,
      address := attr_nat? e "address" (2 ^ 32),
      svd := e.attribute "svd",
      name := e.attribute "Pname",
      unit := attr_nat? e "Punit" (2 ^ 64),
      default_reset_sequence := e.attribute "defaultResetSequence" }

/-- Sequence of debug builders (struct DebugsBuilder). -/
abbrev DebugsBuilder := List DebugBuilder

/-- DebugsBuilder::from_elem_and_parent: a singleton sequence. -/
def DebugsBuilder.from_elem_and_parent (e p : XNode) : Except String DebugsBuilder :=
  (DebugBuilder.from_elem_and_parent e p).map (fun d => [d])

/-- DebugsBuilder::merge: extend the child list with the parent's. -/
def DebugsBuilder.merge (s parent : DebugsBuilder) : DebugsBuilder :=
  s ++ parent

/-- DebugsBuilder::merge_into: extend this list with the other's. -/
def DebugsBuilder.merge_into (s other : DebugsBuilder) : DebugsBuilder :=
  s ++ other

/-- DebugsBuilder::build: freeze every builder. -/
def DebugsBuilder.build (s : DebugsBuilder) : List Debug :=
  s.map DebugBuilder.build

/-- A fully resolved per-unit processor record (struct Processor). -/
structure Processor where
  core : Core
  fpu : FPU
  mpu : MPU
  ap : AccessPort
  dp : Nat
  address : Option Nat
  svd : Option String
  name : Option String
  unit : Nat
  default_reset_sequence : Option String
deriving DecidableEq

/-- Accumulator for one processor element (struct ProcessorBuilder). -/
structure ProcessorBuilder where
  core : Option Core
  units : Option Nat
  name : Option String
  fpu : Option FPU
  mpu : Option MPU
deriving DecidableEq

/-- ProcessorBuilder::merge: keep own fields, fill gaps from the other. -/
def ProcessorBuilder.merge (s other : ProcessorBuilder) : ProcessorBuilder :=
  { core := s.core.or other.core,
    units := s.units.or other.units,
    name := s.name.or other.name,
    fpu := s.fpu.or other.fpu,
    mpu := s.mpu.or other.mpu }

/-- The Pname/Punit filter in ProcessorBuilder::build: if Pname or Punit
are present on the debug element, they must match. -/
def debugMatches (name : Option String) (unit : Nat) (d : Debug) : Bool :=
  (match d.name with
   | none => true
   | some n => name == some n)
  && (match d.unit with
      | none => true
      | some u => u == unit)

/-- The body of the per-unit closure in ProcessorBuilder::build. -/
def ProcessorBuilder.buildUnit (s : ProcessorBuilder) (debugs : List Debug)
    (unit : Nat) : Except String Processor :=
  let ds := debugs.filter (debugMatches s.name unit)
  match s.core with
  | none => .error "No Core found!"
  | some core =>
    .ok { core := core,
          fpu := s.fpu.getD FPU.None,
          mpu := s.mpu.getD MPU.NotPresent,
          dp := (ds.findSome? (·.dp)).getD 0,
          ap := (ds.findSome? (·.ap)).getD AccessPort.dfault,
          address := ds.findSome? (·.address),
          svd := ds.findSome? (·.svd),
          name := s.name,
          unit := unit,
          default_reset_sequence := ds.findSome? (·.default_reset_sequence) }

/-- Rust's Iterator::collect into Result of Vec: first error wins,
otherwise the list of successes in order. -/
def collectE {α : Type} : List (Except String α) → Except String (List α)
  | [] => .ok []
  | x :: xs =>
    match x with
    | .error e => .error e
    | .ok a => (collectE xs).map (fun ys => a :: ys)

/-- ProcessorBuilder::build: expand into one Processor per unit,
units = Punits with default 1. -/
def ProcessorBuilder.build (s : ProcessorBuilder) (debugs : List Debug) :
    Except String (List Processor) :=
  collectE ((List.range (s.units.getD 1)).map (s.buildUnit debugs))

/-- ProcessorBuilder parsed from a processor element (FromElem impl);
every attribute is optional at construction. -/
def ProcessorBuilder.from_elem (e : XNode) : ProcessorBuilder :=
  { core := attr_core? e "Dcore",
    units := attr_nat? e "Punits" (2 ^ 64),
    fpu := attr_fpu? e "Dfpu",
    mpu := attr_mpu? e "Dmpu",
    name := e.attribute "Pname" }

/-- Sequence of processor builders (struct ProcessorsBuilder). -/
abbrev ProcessorsBuilder := List ProcessorBuilder

/-- Association list model of HashMap with Option String keys: lookup. -/
def pbmLookup (m : List (Option String × ProcessorBuilder)) (k : Option String) :
    Option ProcessorBuilder :=
  (m.find? (fun q => q.1 == k)).map (·.2)

/-- Association list model of HashMap with Option String keys: insert
replaces the value at an existing key in place, else appends. -/
def pbmInsert (m : List (Option String × ProcessorBuilder)) (k : Option String)
    (v : ProcessorBuilder) : List (Option String × ProcessorBuilder) :=
  if m.any (fun q => q.1 == k) then
    m.map (fun q => if q.1 == k then (k, v) else q)
  else m ++ [(k, v)]

/-- ProcessorsBuilder::merge with an optional parent: group the child
builders by Pname into a map (later duplicates overwrite), then fold the
parent's builders in: entry(name).or_insert(parent).merge(parent).
The result is the map's values. -/
def ProcessorsBuilder.merge (s : ProcessorsBuilder)
    (parent : Option ProcessorsBuilder) : Except String ProcessorsBuilder :=
  match parent with
  | none => .ok s
  | some par =>
    let current := s.foldl (fun m p => pbmInsert m p.name p) []
    let merged := par.foldl (fun m p =>
      pbmInsert m p.name (((pbmLookup m p.name).getD p).merge p)) current
    .ok (merged.map (·.2))

/-- ProcessorsBuilder::merge_into: concatenate sibling builders. -/
def ProcessorsBuilder.merge_into (s other : ProcessorsBuilder) : ProcessorsBuilder :=
  s ++ other

/-- ProcessorsBuilder::build: expand every builder against the debug
list and concatenate, with the first failure propagating. -/
def ProcessorsBuilder.build (s : ProcessorsBuilder) (debugs : List Debug) :
    Except String (List Processor) :=
  (collectE (s.map (fun p => p.build debugs))).map List.flatten

/-- FromElem for ProcessorsBuilder: a singleton sequence. -/
def ProcessorsBuilder.from_elem (e : XNode) : ProcessorsBuilder :=
  [ProcessorBuilder.from_elem e]

/-- Permission bitset decoded from the characters r w x p s n c
(struct MemoryPermissions). -/
@[ext]
structure MemoryPermissions where
  read : Bool
  write : Bool
  execute : Bool
  peripheral : Bool
  secure : Bool
  non_secure : Bool
  non_secure_callable : Bool
deriving DecidableEq

/-- One step of the character loop in MemoryPermissions::from_str. -/
def MemoryPermissions.setChar (ret : MemoryPermissions) (c : Char) : MemoryPermissions :=
  if c = 'r' then { ret with read := true }
  else if c = 'w' then { ret with write := true }
  else if c = 'x' then { ret with execute := true }
  else if c = 'p' then { ret with peripheral := true }
  else if c = 's' then { ret with secure := true }
  else if c = 'n' then { ret with non_secure := true }
  else if c = 'c' then { ret with non_secure_callable := true }
  else ret

/-- MemoryPermissions::from_str: start all-false, set one flag per
recognized character, ignore the rest. -/
def MemoryPermissions.from_str (input : String) : MemoryPermissions :=
  input.data.foldl MemoryPermissions.setChar
    { read := false, write := false, execute := false, peripheral := false,
      secure := false, non_secure := false, non_secure_callable := false }

/-- One memory region record (struct Memory). -/
structure Memory where
  p_name : Option String
  access : MemoryPermissions
  start : Nat
  size : Nat
  startup : Bool
  default : Bool
deriving DecidableEq

/-- Region-name keyed memory map (struct Memories, a HashMap), modelled
as an association list; insertion replaces an existing key in place. -/
abbrev Memories := List (String × Memory)

/-- HashMap::get by region name on the association-list model. -/
def Memories.lookup (m : Memories) (k : String) : Option Memory :=
  (m.find? (fun p => p.1 == k)).map (·.2)

/-- HashMap::insert on the association-list model: replace in place or
append. -/
def Memories.insert (m : Memories) (k : String) (v : Memory) : Memories :=
  if m.any (fun p => p.1 == k) then
    m.map (fun p => if p.1 == k then (k, v) else p)
  else m ++ [(k, v)]

/-- Substring containment, modelling Rust str::contains with a literal
needle. -/
def strContainsSub (hay needle : String) : Bool :=
  (List.range (hay.data.length + 1)).any
    (fun i => needle.data.isPrefixOf (hay.data.drop i))

/-- merge_memories from device.rs: keep every lhs entry; extend with the
rhs entries whose key the lhs does not contain. -/
def merge_memories (lhs : Memories) (rhs : Memories) : Memories :=
  let rhs' := rhs.filter (fun q => !(lhs.any (fun p => p.1 == q.1)))
  rhs'.foldl (fun m q => Memories.insert m q.1 q.2) lhs

/-- A named memory region parsed from one memory element (struct
MemElem). -/
structure MemElem where
  name : String
  mem : Memory
deriving DecidableEq

/-- FromElem for MemElem, translated from device.rs: name is id else
name (required); access from the access attribute or the ROM / RAM
heuristic on id; start and size required hex; startup and default
optional NumberBools defaulting to false. -/
def MemElem.from_elem (e : XNode) : Except String MemElem :=
  let access := MemoryPermissions.from_str
    ((e.attribute "access").getD
      (let memtype := (e.attribute "id").getD ""
       if strContainsSub memtype "ROM" then "rx"
       else if strContainsSub memtype "RAM" then "rw"
       else ""))
  match (e.attribute "id").or (e.attribute "name") with
  | none => .error "No name found for memory"
  | some name =>
    match attr_hex e "start" (2 ^ 64) with
    | .error err => .error err
    | .ok start =>
      match attr_hex e "size" (2 ^ 64) with
      | .error err => .error err
      | .ok size =>
        .ok { name := name,
              mem := { p_name := e.attribute "Pname",
                       access := access,
                       start := start,
                       size := size,
                       startup := (attr_numberBool? e "startup").getD false,
                       default := (attr_numberBool? e "default").getD false } }

/-- Flash algorithm style (enum AlgorithmStyle). -/
inductive AlgorithmStyle where
  | Keil
  | IAR
  | CMSIS
deriving DecidableEq

/-- FromStr for AlgorithmStyle, translated from device.rs. -/
def AlgorithmStyle.from_str (from_ : String) : Except String AlgorithmStyle :=
  if from_ == "Keil" then .ok AlgorithmStyle.Keil
  else if from_ == "IAR" then .ok AlgorithmStyle.IAR
  else if from_ == "CMSIS" then .ok AlgorithmStyle.CMSIS
  else .error ("Unknown algorithm style " ++ from_)

/-- Optional AlgorithmStyle attribute (attr_parse(e, a).ok()). -/
def attr_style? (e : XNode) (a : String) : Option AlgorithmStyle :=
  (e.attribute a).bind fun s => (AlgorithmStyle.from_str s).toOption

/-- One flash algorithm record (struct Algorithm). -/
structure Algorithm where
  file_name : String
  start : Nat
  size : Nat
  default : Bool
  ram_start : Option Nat
  ram_size : Option Nat
  style : AlgorithmStyle
deriving DecidableEq

/-- Rust str::replace of the single character backslash by a forward
slash. -/
def normalizeSlashes (s : String) : String :=
  ⟨s.data.map (fun c => if c = '\\' then '/' else c)⟩

/-- FromElem for Algorithm, translated from device.rs. -/
def Algorithm.from_elem (e : XNode) : Except String Algorithm :=
  match e.attribute "name" with
  | none => .error "missing attribute name"
  | some file_name =>
    match attr_hex e "start" (2 ^ 64) with
    | .error err => .error err
    | .ok start =>
      match attr_hex e "size" (2 ^ 64) with
      | .error err => .error err
      | .ok size =>
        .ok { file_name := normalizeSlashes file_name,
              start := start,
              size := size,
              ram_start := attr_hex? e "RAMstart" (2 ^ 64),
              ram_size := attr_hex? e "RAMsize" (2 ^ 64),
              default := (attr_numberBool? e "default").getD false,
              style := (attr_style? e "style").getD AlgorithmStyle.Keil }

/-- Accumulator for one hierarchy level (struct DeviceBuilder). -/
structure DeviceBuilder where
  name : Option String
  algorithms : List Algorithm
  memories : Memories
  processor : Option ProcessorsBuilder
  debugs : DebugsBuilder
  vendor : Option String
  family : Option String
  sub_family : Option String
deriving DecidableEq

/-- The emitted device record (struct Device). -/
structure Device where
  name : String
  memories : Memories
  algorithms : List Algorithm
  processors : List Processor
  vendor : Option String
  family : String
  sub_family : Option String
deriving DecidableEq

/-- DeviceBuilder::from_elem: read the level's own naming attributes;
Dfamily only off a family element, DsubFamily only off a subFamily
element, name from Dname or else Dvariant. -/
def DeviceBuilder.from_elem (e : XNode) : DeviceBuilder :=
  { name := (e.attribute "Dname").or (e.attribute "Dvariant"),
    vendor := e.attribute "Dvendor",
    memories := [],
    algorithms := [],
    processor := none,
    debugs := [],
    family := if e.tag == "family" then e.attribute "Dfamily" else none,
    sub_family := if e.tag == "subFamily" then e.attribute "DsubFamily" else none }

/-- DeviceBuilder::build: require name, family and a processor builder;
expand the processors against the built debug list. -/
def DeviceBuilder.build (s : DeviceBuilder) : Except String Device :=
  match s.name with
  | none => .error "Device found without a name"
  | some name =>
    match s.family with
    | none => .error "Device found without a family"
    | some family =>
      let debugs := DebugsBuilder.build s.debugs
      match s.processor with
      | none => .error ("Device found without a processor " ++ name)
      | some pb =>
        (ProcessorsBuilder.build pb debugs).map fun processors =>
          { processors := processors,
            name := name,
            memories := s.memories,
            algorithms := s.algorithms,
            vendor := s.vendor,
            family := family,
            sub_family := s.sub_family }

/-- DeviceBuilder::add_parent: merge this builder with its parent. -/
def DeviceBuilder.add_parent (s : DeviceBuilder) (parent : DeviceBuilder) :
    Except String DeviceBuilder :=
  let algorithms := s.algorithms ++ parent.algorithms
  let processorE : Except String (Option ProcessorsBuilder) :=
    match s.processor with
    | some old_proc => (old_proc.merge parent.processor).map some
    | none => .ok parent.processor
  processorE.map fun processor =>
    { name := s.name.or parent.name,
      algorithms := algorithms,
      memories := merge_memories s.memories parent.memories,
      processor := processor,
      debugs := DebugsBuilder.merge s.debugs parent.debugs,
      vendor := s.vendor.or parent.vendor,
      family := s.family.or parent.family,
      sub_family := s.sub_family.or parent.sub_family }

/-- DeviceBuilder::add_processor: set or concatenate. -/
def DeviceBuilder.add_processor (s : DeviceBuilder) (processor : ProcessorsBuilder) :
    DeviceBuilder :=
  match s.processor with
  | none => { s with processor := some processor }
  | some origin => { s with processor := some (origin.merge_into processor) }

/-- DeviceBuilder::add_debug: extend the debug list. -/
def DeviceBuilder.add_debug (s : DeviceBuilder) (debug : DebugsBuilder) : DeviceBuilder :=
  { s with debugs := s.debugs.merge_into debug }

/-- DeviceBuilder::add_memory: insert one region by name. -/
def DeviceBuilder.add_memory (s : DeviceBuilder) (m : MemElem) : DeviceBuilder :=
  { s with memories := s.memories.insert m.name m.mem }

/-- DeviceBuilder::add_algorithm: push one algorithm. -/
def DeviceBuilder.add_algorithm (s : DeviceBuilder) (alg : Algorithm) : DeviceBuilder :=
  { s with algorithms := s.algorithms ++ [alg] }

/-- One child-dispatch step of parse_device: the accumulator is the
local builder together with the variant builders collected so far.
Per-element parse failures are dropped (ok_warn). -/
def parse_device_step (e : XNode) (acc : DeviceBuilder × List DeviceBuilder)
    (child : XNode) : DeviceBuilder × List DeviceBuilder :=
  if child.tag == "variant" then
    (acc.1, acc.2 ++ [DeviceBuilder.from_elem child])
  else if child.tag == "memory" then
    (match (MemElem.from_elem child).toOption with
     | some mem => (acc.1.add_memory mem, acc.2)
     | none => acc)
  else if child.tag == "algorithm" then
    (match (Algorithm.from_elem child).toOption with
     | some alg => (acc.1.add_algorithm alg, acc.2)
     | none => acc)
  else if child.tag == "processor" then
    (acc.1.add_processor (ProcessorsBuilder.from_elem child), acc.2)
  else if child.tag == "debug" then
    (match (DebugsBuilder.from_elem_and_parent child e).toOption with
     | some debug => (acc.1.add_debug debug, acc.2)
     | none => acc)
  else acc

/-- parse_device from device.rs: accumulate the local builder and the
variant builders over the children; emit the local builder when there
are no variants, else each variant merged with the local builder. -/
def parse_device (e : XNode) : List DeviceBuilder :=
  let acc := e.children.foldl (parse_device_step e) (DeviceBuilder.from_elem e, [])
  if acc.2.isEmpty then [acc.1]
  else acc.2.filterMap (fun bld => (bld.add_parent acc.1).toOption)

/-- One child-dispatch step of parse_sub_family. -/
def parse_sub_family_step (e : XNode) (acc : DeviceBuilder × List DeviceBuilder)
    (child : XNode) : DeviceBuilder × List DeviceBuilder :=
  if child.tag == "device" then
    (acc.1, acc.2 ++ parse_device child)
  else if child.tag == "memory" then
    (match (MemElem.from_elem child).toOption with
     | some mem => (acc.1.add_memory mem, acc.2)
     | none => acc)
  else if child.tag == "algorithm" then
    (match (Algorithm.from_elem child).toOption with
     | some alg => (acc.1.add_algorithm alg, acc.2)
     | none => acc)
  else if child.tag == "processor" then
    (acc.1.add_processor (ProcessorsBuilder.from_elem child), acc.2)
  else if child.tag == "debug" then
    (match (DebugsBuilder.from_elem_and_parent child e).toOption with
     | some debug => (acc.1.add_debug debug, acc.2)
     | none => acc)
  else acc

/-- parse_sub_family from device.rs: collect the device builders of the
device children, accumulate local leaves, then merge every device
builder with the subFamily-level builder. -/
def parse_sub_family (e : XNode) : List DeviceBuilder :=
  let acc := e.children.foldl (parse_sub_family_step e) (DeviceBuilder.from_elem e, [])
  acc.2.filterMap (fun bldr => (bldr.add_parent acc.1).toOption)

/-- One child-dispatch step of parse_family. -/
def parse_family_step (e : XNode) (acc : DeviceBuilder × List DeviceBuilder)
    (child : XNode) : DeviceBuilder × List DeviceBuilder :=
  if child.tag == "subFamily" then
    (acc.1, acc.2 ++ parse_sub_family child)
  else if child.tag == "device" then
    (acc.1, acc.2 ++ parse_device child)
  else if child.tag == "memory" then
    (match (MemElem.from_elem child).toOption with
     | some mem => (acc.1.add_memory mem, acc.2)
     | none => acc)
  else if child.tag == "algorithm" then
    (match (Algorithm.from_elem child).toOption with
     | some alg => (acc.1.add_algorithm alg, acc.2)
     | none => acc)
  else if child.tag == "processor" then
    (acc.1.add_processor (ProcessorsBuilder.from_elem child), acc.2)
  else if child.tag == "debug" then
    (match (DebugsBuilder.from_elem_and_parent child e).toOption with
     | some debug => (acc.1.add_debug debug, acc.2)
     | none => acc)
  else acc

/-- The fold of parse_family over the family element's children:
family-level builder plus all descendant device builders. -/
def family_fold (e : XNode) : DeviceBuilder × List DeviceBuilder :=
  e.children.foldl (parse_family_step e) (DeviceBuilder.from_elem e, [])

/-- parse_family from device.rs: merge every collected builder with the
family-level builder and build it; the results are collected into a
Result, so the first build failure aborts the whole family. -/
def parse_family (e : XNode) : Except String (List Device) :=
  collectE ((family_fold e).2.map (fun bldr =>
    (bldr.add_parent (family_fold e).1).bind DeviceBuilder.build))

/-- Name-keyed device map (struct Devices, a HashMap), modelled as an
association list; insertion replaces an existing key in place. -/
abbrev Devices := List (String × Device)

/-- HashMap::get by device name on the association-list model. -/
def Devices.lookup (m : Devices) (k : String) : Option Device :=
  (m.find? (fun p => p.1 == k)).map (·.2)

/-- HashMap::insert on the association-list model: replace in place or
append. -/
def Devices.insert (m : Devices) (k : String) (v : Device) : Devices :=
  if m.any (fun p => p.1 == k) then
    m.map (fun p => if p.1 == k then (k, v) else p)
  else m ++ [(k, v)]

/-- The try_fold of Devices::from_elem over the root's children: each
child is parsed as a family (an error aborts the fold) and its devices
are inserted into the map keyed by name, last write winning. -/
def Devices.from_children : List XNode → Devices → Except String Devices
  | [], res => .ok res
  | c :: cs, res =>
    match parse_family c with
    | .error e => .error e
    | .ok add_this =>
      Devices.from_children cs
        (add_this.foldl (fun m dev => Devices.insert m dev.name dev) res)

/-- Devices::from_elem from device.rs. -/
def Devices.from_elem (e : XNode) : Except String Devices :=
  Devices.from_children e.children []

/-! Generic helper lemmas about the collection combinators. -/

theorem collectE_ok_forall₂ {α β : Type} {f : α → Except String β} :
    ∀ {l : List α} {ys : List β}, collectE (l.map f) = .ok ys →
      List.Forall₂ (fun a b => f a = .ok b) l ys := by
  intro l
  induction l with
  | nil =>
    intro ys h
    simp only [List.map_nil, collectE, Except.ok.injEq] at h
    subst h
    exact List.Forall₂.nil
  | cons a as ih =>
    intro ys h
    simp only [List.map_cons, collectE] at h
    cases hf : f a with
    | error e => rw [hf] at h; cases h
    | ok b =>
      rw [hf] at h
      cases hc : collectE (as.map f) with
      | error e => rw [hc] at h; cases h
      | ok zs =>
        rw [hc] at h
        simp only [Except.map, Except.ok.injEq] at h
        subst h
        exact List.Forall₂.cons hf (ih hc)

theorem collectE_error_of_mem {α β : Type} {f : α → Except String β} :
    ∀ {l : List α} {a : α}, a ∈ l → ∀ {err : String}, f a = .error err →
      ∃ e, collectE (l.map f) = .error e := by
  intro l
  induction l with
  | nil => intro a ha; cases ha
  | cons x xs ih =>
    intro a ha err hf
    cases hx : f x with
    | error e => exact ⟨e, by simp [collectE, hx]⟩
    | ok b =>
      rcases List.mem_cons.mp ha with h | h
      · subst h; rw [hx] at hf; cases hf
      · rcases ih h hf with ⟨e, he⟩
        refine ⟨e, ?_⟩
        simp [collectE, hx, he, Except.map]

theorem find?_append_some {α : Type} {p : α → Bool} :
    ∀ {l₁ l₂ : List α} {x : α}, l₁.find? p = some x → (l₁ ++ l₂).find? p = some x := by
  intro l₁
  induction l₁ with
  | nil => intro l₂ x h; cases h
  | cons a as ih =>
    intro l₂ x h
    by_cases hp : p a
    · rw [List.find?_cons_of_pos _ hp] at h
      simpa [List.find?_cons_of_pos _ hp] using h
    · rw [List.find?_cons_of_neg _ (by simpa using hp)] at h
      rw [List.cons_append, List.find?_cons_of_neg _ (by simpa using hp)]
      exact ih h

theorem find?_append_none {α : Type} {p : α → Bool} :
    ∀ {l₁ : List α}, l₁.find? p = none → ∀ l₂, (l₁ ++ l₂).find? p = l₂.find? p := by
  intro l₁
  induction l₁ with
  | nil => intro _ l₂; rfl
  | cons a as ih =>
    intro h l₂
    by_cases hp : p a
    · rw [List.find?_cons_of_pos _ hp] at h; cases h
    · rw [List.find?_cons_of_neg _ (by simpa using hp)] at h
      rw [List.cons_append, List.find?_cons_of_neg _ (by simpa using hp)]
      exact ih h l₂

theorem find?_split {α : Type} {p : α → Bool} {l₁ : List α} {c : α} (l₂ : List α)
    (h₁ : ∀ x ∈ l₁, p x = false) (hc : p c = true) :
    (l₁ ++ c :: l₂).find? p = some c := by
  have hnone : l₁.find? p = none := by
    rw [List.find?_eq_none]
    intro x hx
    simp [h₁ x hx]
  rw [find?_append_none hnone, List.find?_cons_of_pos _ hc]

theorem findSome?_split {α β : Type} {f : α → Option β} :
    ∀ {l₁ : List α} {c : α} (l₂ : List α) {v : β},
      (∀ x ∈ l₁, f x = none) → f c = some v → (l₁ ++ c :: l₂).findSome? f = some v := by
  intro l₁
  induction l₁ with
  | nil =>
    intro c l₂ v _ hc
    simp [List.findSome?, hc]
  | cons a as ih =>
    intro c l₂ v h hc
    have ha : f a = none := h a (List.mem_cons_self a as)
    rw [List.cons_append]
    simp only [List.findSome?, ha]
    exact ih l₂ (fun x hx => h x (List.mem_cons_of_mem a hx)) hc

theorem findSome?_none {α β : Type} {f : α → Option β} :
    ∀ {l : List α}, (∀ x ∈ l, f x = none) → l.findSome? f = none := by
  intro l
  induction l with
  | nil => intro _; rfl
  | cons a as ih =>
    intro h
    have ha : f a = none := h a (List.mem_cons_self a as)
    simp only [List.findSome?, ha]
    exact ih (fun x hx => h x (List.mem_cons_of_mem a hx))

theorem forall₂_map_congr {α β γ : Type} {R : α → β → Prop} {f : α → γ} {g : β → γ}
    (h : ∀ a b, R a b → f a = g b) :
    ∀ {l : List α} {l' : List β}, List.Forall₂ R l l' → l.map f = l'.map g := by
  intro l l' hrel
  induction hrel with
  | nil => rfl
  | cons hab _ ih => simp [h _ _ hab, ih]

theorem forall₂_mem_right {α β : Type} {R : α → β → Prop} :
    ∀ {l : List α} {l' : List β}, List.Forall₂ R l l' → ∀ {b : β}, b ∈ l' →
      ∃ a ∈ l, R a b := by
  intro l l' hrel
  induction hrel with
  | nil => intro b hb; cases hb
  | cons hab _ ih =>
    intro b hb
    rcases List.mem_cons.mp hb with h | h
    · subst h; exact ⟨_, List.mem_cons_self _ _, hab⟩
    · rcases ih h with ⟨a, ha, hr⟩
      exact ⟨a, List.mem_cons_of_mem _ ha, hr⟩

theorem bool_eq_of_iff {a b : Bool} (h : a = true ↔ b = true) : a = b := by
  cases a <;> cases b <;> simp_all

/-! Facts about MemoryPermissions::from_str. -/

theorem setChar_read (ret : MemoryPermissions) (c : Char) :
    (MemoryPermissions.setChar ret c).read = if c = 'r' then true else ret.read := by
  unfold MemoryPermissions.setChar
  split_ifs <;> rfl

theorem setChar_write (ret : MemoryPermissions) (c : Char) :
    (MemoryPermissions.setChar ret c).write = if c = 'w' then true else ret.write := by
  unfold MemoryPermissions.setChar
  split_ifs <;> first
    | rfl
    | (rename_i hA hB; subst hA; exact absurd hB (by decide))

theorem setChar_execute (ret : MemoryPermissions) (c : Char) :
    (MemoryPermissions.setChar ret c).execute = if c = 'x' then true else ret.execute := by
  unfold MemoryPermissions.setChar
  split_ifs <;> first
    | rfl
    | (rename_i hA hB; subst hA; exact absurd hB (by decide))

theorem setChar_peripheral (ret : MemoryPermissions) (c : Char) :
    (MemoryPermissions.setChar ret c).peripheral = if c = 'p' then true else ret.peripheral := by
  unfold MemoryPermissions.setChar
  split_ifs <;> first
    | rfl
    | (rename_i hA hB; subst hA; exact absurd hB (by decide))

theorem setChar_secure (ret : MemoryPermissions) (c : Char) :
    (MemoryPermissions.setChar ret c).secure = if c = 's' then true else ret.secure := by
  unfold MemoryPermissions.setChar
  split_ifs <;> first
    | rfl
    | (rename_i hA hB; subst hA; exact absurd hB (by decide))

theorem setChar_non_secure (ret : MemoryPermissions) (c : Char) :
    (MemoryPermissions.setChar ret c).non_secure = if c = 'n' then true else ret.non_secure := by
  unfold MemoryPermissions.setChar
  split_ifs <;> first
    | rfl
    | (rename_i hA hB; subst hA; exact absurd hB (by decide))

theorem setChar_nsc (ret : MemoryPermissions) (c : Char) :
    (MemoryPermissions.setChar ret c).non_secure_callable =
      if c = 'c' then true else ret.non_secure_callable := by
  unfold MemoryPermissions.setChar
  split_ifs <;> first
    | rfl
    | (rename_i hA hB; subst hA; exact absurd hB (by decide))

theorem foldl_setChar_flag (pick : MemoryPermissions → Bool) (ch : Char)
    (hpick : ∀ ret c, pick (MemoryPermissions.setChar ret c) =
      if c = ch then true else pick ret) :
    ∀ (cs : List Char) (ret : MemoryPermissions),
      pick (cs.foldl MemoryPermissions.setChar ret) =
        (pick ret || cs.any (fun c => decide (c = ch))) := by
  intro cs
  induction cs with
  | nil => intro ret; simp
  | cons c cs ih =>
    intro ret
    rw [List.foldl_cons, ih, List.any_cons, hpick]
    by_cases h : c = ch
    · rw [if_pos h, decide_eq_true h]
      simp
    · rw [if_neg h, decide_eq_false h]
      simp

theorem from_str_flag_read (s : String) :
    ((MemoryPermissions.from_str s).read = true) ↔ 'r' ∈ s.data := by
  unfold MemoryPermissions.from_str
  rw [foldl_setChar_flag (·.read) 'r' setChar_read]
  simp

theorem from_str_flag_write (s : String) :
    ((MemoryPermissions.from_str s).write = true) ↔ 'w' ∈ s.data := by
  unfold MemoryPermissions.from_str
  rw [foldl_setChar_flag (·.write) 'w' setChar_write]
  simp

theorem from_str_flag_execute (s : String) :
    ((MemoryPermissions.from_str s).execute = true) ↔ 'x' ∈ s.data := by
  unfold MemoryPermissions.from_str
  rw [foldl_setChar_flag (·.execute) 'x' setChar_execute]
  simp

theorem from_str_flag_peripheral (s : String) :
    ((MemoryPermissions.from_str s).peripheral = true) ↔ 'p' ∈ s.data := by
  unfold MemoryPermissions.from_str
  rw [foldl_setChar_flag (·.peripheral) 'p' setChar_peripheral]
  simp

theorem from_str_flag_secure (s : String) :
    ((MemoryPermissions.from_str s).secure = true) ↔ 's' ∈ s.data := by
  unfold MemoryPermissions.from_str
  rw [foldl_setChar_flag (·.secure) 's' setChar_secure]
  simp

theorem from_str_flag_non_secure (s : String) :
    ((MemoryPermissions.from_str s).non_secure = true) ↔ 'n' ∈ s.data := by
  unfold MemoryPermissions.from_str
  rw [foldl_setChar_flag (·.non_secure) 'n' setChar_non_secure]
  simp

theorem from_str_flag_nsc (s : String) :
    ((MemoryPermissions.from_str s).non_secure_callable = true) ↔ 'c' ∈ s.data := by
  unfold MemoryPermissions.from_str
  rw [foldl_setChar_flag (·.non_secure_callable) 'c' setChar_nsc]
  simp

/-- C3: Core::from_str has no arm for the canonical name ARMV81MML even
though the enum declares the variant Core::ARMV81MML, so it returns the
unknown-core error for it; the neighbouring v8-M names and the wildcard
parse as specified. -/
theorem c3_core_from_str_armv81mml_rejected :
    Core.from_str "ARMV81MML" = Except.error "Unknown core ARMV81MML"
    ∧ Core.from_str "ARMV8MBL" = Except.ok Core.ARMV8MBL
    ∧ Core.from_str "ARMV8MML" = Except.ok Core.ARMV8MML
    ∧ Core.from_str "*" = Except.ok Core.Any :=
  ⟨rfl, rfl, rfl, rfl⟩

/-- C10: MemoryPermissions::from_str depends only on which of the seven
recognized characters occur in the input: each flag is true exactly when
its character occurs, and two inputs containing the same subset of the
recognized characters decode to equal permission sets. -/
theorem c10_from_str_char_set (s t : String)
    (h : ∀ c : Char, c ∈ ['r', 'w', 'x', 'p', 's', 'n', 'c'] →
      (c ∈ s.data ↔ c ∈ t.data)) :
    MemoryPermissions.from_str s = MemoryPermissions.from_str t
    ∧ ((MemoryPermissions.from_str s).read = true ↔ 'r' ∈ s.data)
    ∧ ((MemoryPermissions.from_str s).write = true ↔ 'w' ∈ s.data)
    ∧ ((MemoryPermissions.from_str s).execute = true ↔ 'x' ∈ s.data)
    ∧ ((MemoryPermissions.from_str s).peripheral = true ↔ 'p' ∈ s.data)
    ∧ ((MemoryPermissions.from_str s).secure = true ↔ 's' ∈ s.data)
    ∧ ((MemoryPermissions.from_str s).non_secure = true ↔ 'n' ∈ s.data)
    ∧ ((MemoryPermissions.from_str s).non_secure_callable = true ↔ 'c' ∈ s.data) := by
  refine ⟨?_, from_str_flag_read s, from_str_flag_write s, from_str_flag_execute s,
    from_str_flag_peripheral s, from_str_flag_secure s, from_str_flag_non_secure s,
    from_str_flag_nsc s⟩
  ext
  · exact bool_eq_of_iff (by
      rw [from_str_flag_read s, from_str_flag_read t]
      exact h 'r' (by simp))
  · exact bool_eq_of_iff (by
      rw [from_str_flag_write s, from_str_flag_write t]
      exact h 'w' (by simp))
  · exact bool_eq_of_iff (by
      rw [from_str_flag_execute s, from_str_flag_execute t]
      exact h 'x' (by simp))
  · exact bool_eq_of_iff (by
      rw [from_str_flag_peripheral s, from_str_flag_peripheral t]
      exact h 'p' (by simp))
  · exact bool_eq_of_iff (by
      rw [from_str_flag_secure s, from_str_flag_secure t]
      exact h 's' (by simp))
  · exact bool_eq_of_iff (by
      rw [from_str_flag_non_secure s, from_str_flag_non_secure t]
      exact h 'n' (by simp))
  · exact bool_eq_of_iff (by
      rw [from_str_flag_nsc s, from_str_flag_nsc t]
      exact h 'c' (by simp))

/-- Witness for C10 at two concrete strings with the same recognized
character subset but different order, repetition and noise characters. -/
theorem c10_from_str_char_set_witness :
    (∀ c : Char, c ∈ ['r', 'w', 'x', 'p', 's', 'n', 'c'] →
      (c ∈ "rw".data ↔ c ∈ "w!r?r".data))
    ∧ (MemoryPermissions.from_str "rw" = MemoryPermissions.from_str "w!r?r"
      ∧ ((MemoryPermissions.from_str "rw").read = true ↔ 'r' ∈ "rw".data)
      ∧ ((MemoryPermissions.from_str "rw").write = true ↔ 'w' ∈ "rw".data)
      ∧ ((MemoryPermissions.from_str "rw").execute = true ↔ 'x' ∈ "rw".data)
      ∧ ((MemoryPermissions.from_str "rw").peripheral = true ↔ 'p' ∈ "rw".data)
      ∧ ((MemoryPermissions.from_str "rw").secure = true ↔ 's' ∈ "rw".data)
      ∧ ((MemoryPermissions.from_str "rw").non_secure = true ↔ 'n' ∈ "rw".data)
      ∧ ((MemoryPermissions.from_str "rw").non_secure_callable = true ↔ 'c' ∈ "rw".data)) :=
  ⟨by decide, c10_from_str_char_set "rw" "w!r?r" (by decide)⟩

/-! Facts about the processor expander. -/

theorem buildUnit_ok {s : ProcessorBuilder} {debugs : List Debug} {u : Nat} {p : Processor}
    (h : s.buildUnit debugs u = .ok p) :
    s.core = some p.core ∧ p.unit = u ∧ p.name = s.name
    ∧ p.fpu = s.fpu.getD FPU.None ∧ p.mpu = s.mpu.getD MPU.NotPresent
    ∧ p.dp = ((debugs.filter (debugMatches s.name u)).findSome? (fun d => d.dp)).getD 0
    ∧ p.ap = ((debugs.filter (debugMatches s.name u)).findSome? (fun d => d.ap)).getD
        AccessPort.dfault
    ∧ p.address = (debugs.filter (debugMatches s.name u)).findSome? (fun d => d.address)
    ∧ p.svd = (debugs.filter (debugMatches s.name u)).findSome? (fun d => d.svd)
    ∧ p.default_reset_sequence =
        (debugs.filter (debugMatches s.name u)).findSome? (fun d => d.default_reset_sequence) := by
  unfold ProcessorBuilder.buildUnit at h
  cases hc : s.core with
  | none => rw [hc] at h; cases h
  | some core =>
    rw [hc] at h
    simp only [Except.ok.injEq] at h
    subst h
    exact ⟨rfl, rfl, rfl, rfl, rfl, rfl, rfl, rfl, rfl, rfl⟩

theorem buildUnit_err {s : ProcessorBuilder} {debugs : List Debug} {u : Nat}
    (h : s.core = none) : s.buildUnit debugs u = .error "No Core found!" := by
  unfold ProcessorBuilder.buildUnit
  rw [h]

theorem build_ok_forall₂ {s : ProcessorBuilder} {debugs : List Debug} {ps : List Processor}
    (h : s.build debugs = .ok ps) :
    List.Forall₂ (fun u p => s.buildUnit debugs u = .ok p)
      (List.range (s.units.getD 1)) ps :=
  collectE_ok_forall₂ h

/-- C6: ProcessorBuilder::build with Punits = N (default 1) emits exactly
N processors, whose unit fields are 0, 1, ..., N-1 in order, each value
once, all named by the builder's Pname. -/
theorem c6_unit_expansion (pb : ProcessorBuilder) (debugs : List Debug)
    (ps : List Processor) (h : ProcessorBuilder.build pb debugs = .ok ps) :
    ps.length = pb.units.getD 1
    ∧ ps.map (fun p => p.unit) = List.range (pb.units.getD 1)
    ∧ ∀ p ∈ ps, p.name = pb.name := by
  have hf := build_ok_forall₂ h
  have hmap : (List.range (pb.units.getD 1)).map id = ps.map (fun p => p.unit) :=
    forall₂_map_congr (f := id) (g := fun p => p.unit)
      (fun u p hr => ((buildUnit_ok hr).2.1).symm) hf
  rw [List.map_id] at hmap
  refine ⟨?_, hmap.symm, ?_⟩
  · have := congrArg List.length hmap
    simpa using this.symm
  · intro p hp
    obtain ⟨u, _, hb⟩ := forall₂_mem_right hf hp
    exact (buildUnit_ok hb).2.2.1

/-- Witness input for C6: a dual-unit processor builder. -/
def c6pb : ProcessorBuilder :=
  { core := some Core.CortexM7, units := some 2, name := some "CM7",
    fpu := none, mpu := none }

/-- Witness output records for C6. -/
def c6p (u : Nat) : Processor :=
  { core := Core.CortexM7, fpu := FPU.None, mpu := MPU.NotPresent,
    ap := AccessPort.Index 0, dp := 0, address := none, svd := none,
    name := some "CM7", unit := u, default_reset_sequence := none }

/-- Witness for C6 at a concrete dual-unit builder. -/
theorem c6_unit_expansion_witness :
    ProcessorBuilder.build c6pb [] = .ok [c6p 0, c6p 1]
    ∧ ([c6p 0, c6p 1].length = c6pb.units.getD 1
      ∧ [c6p 0, c6p 1].map (fun p => p.unit) = List.range (c6pb.units.getD 1)
      ∧ ∀ p ∈ [c6p 0, c6p 1], p.name = c6pb.name) :=
  ⟨rfl, c6_unit_expansion c6pb [] [c6p 0, c6p 1] rfl⟩

/-- First-wins resolution of a defaulted attribute over a debug list:
the first record carrying the attribute supplies the output, and the
default is used when no record carries it. -/
def FirstWinsD {α : Type} (ds : List Debug) (f : Debug → Option α) (dflt : α)
    (out : α) : Prop :=
  (∀ l₁ d l₂ v, ds = l₁ ++ d :: l₂ → (∀ x ∈ l₁, f x = none) → f d = some v → out = v)
  ∧ ((∀ d ∈ ds, f d = none) → out = dflt)

/-- First-wins resolution of an optional attribute over a debug list:
the first record carrying the attribute supplies the output, which is
absent when no record carries it. -/
def FirstWinsO {α : Type} (ds : List Debug) (f : Debug → Option α)
    (out : Option α) : Prop :=
  (∀ l₁ d l₂ v, ds = l₁ ++ d :: l₂ → (∀ x ∈ l₁, f x = none) → f d = some v → out = some v)
  ∧ ((∀ d ∈ ds, f d = none) → out = none)

theorem firstWinsD_findSome {α : Type} (ds : List Debug) (f : Debug → Option α)
    (dflt : α) : FirstWinsD ds f dflt ((ds.findSome? f).getD dflt) := by
  constructor
  · intro l₁ d l₂ v hsplit h₁ hd
    rw [hsplit, findSome?_split l₂ h₁ hd]
    rfl
  · intro hall
    rw [findSome?_none hall]
    rfl

theorem firstWinsO_findSome {α : Type} (ds : List Debug) (f : Debug → Option α) :
    FirstWinsO ds f (ds.findSome? f) := by
  constructor
  · intro l₁ d l₂ v hsplit h₁ hd
    rw [hsplit, findSome?_split l₂ h₁ hd]
  · intro hall
    exact findSome?_none hall

/-- The debug filter phrased as the spec states it: a record with a
name must name the processor's Pname, a record with a unit must name the
current unit, and absent fields match anything. -/
def specDebugFilter (pname : Option String) (unit : Nat) (d : Debug) : Bool :=
  (d.name.all fun n => pname == some n) && (d.unit.all fun u => u == unit)

theorem debugMatches_eq_spec (pname : Option String) (unit : Nat) (d : Debug) :
    debugMatches pname unit d = specDebugFilter pname unit d := by
  cases hn : d.name <;> cases hu : d.unit <;>
    simp [debugMatches, specDebugFilter, hn, hu]

/-- C5: when a processor builder is built, the debug list is filtered by
matching optional Pname and unit, and each of dp, ap, address, svd and
default_reset_sequence is resolved first-wins over the filtered list in
insertion order, with defaults dp = 0 and ap = Index 0; the merger
appends the parent's debug list after the child's. -/
theorem c5_debug_first_wins (pb : ProcessorBuilder) (debugs : List Debug)
    (ps : List Processor) (h : ProcessorBuilder.build pb debugs = .ok ps)
    (p : Processor) (hp : p ∈ ps) :
    (∀ child parent : DebugsBuilder, DebugsBuilder.merge child parent = child ++ parent)
    ∧ FirstWinsD (debugs.filter (specDebugFilter pb.name p.unit)) (fun d => d.dp) 0 p.dp
    ∧ FirstWinsD (debugs.filter (specDebugFilter pb.name p.unit)) (fun d => d.ap)
        (AccessPort.Index 0) p.ap
    ∧ FirstWinsO (debugs.filter (specDebugFilter pb.name p.unit)) (fun d => d.address)
        p.address
    ∧ FirstWinsO (debugs.filter (specDebugFilter pb.name p.unit)) (fun d => d.svd) p.svd
    ∧ FirstWinsO (debugs.filter (specDebugFilter pb.name p.unit))
        (fun d => d.default_reset_sequence) p.default_reset_sequence := by
  obtain ⟨u, _, hb⟩ := forall₂_mem_right (build_ok_forall₂ h) hp
  obtain ⟨-, hunit, -, -, -, hdp, hap, haddr, hsvd, hdrs⟩ := buildUnit_ok hb
  subst hunit
  have hfe : debugs.filter (specDebugFilter pb.name p.unit)
      = debugs.filter (debugMatches pb.name p.unit) :=
    List.filter_congr (fun d _ => (debugMatches_eq_spec pb.name p.unit d).symm)
  refine ⟨fun _ _ => rfl, ?_, ?_, ?_, ?_, ?_⟩
  · rw [hfe, hdp]; exact firstWinsD_findSome _ _ _
  · rw [hfe, hap]; exact firstWinsD_findSome _ _ _
  · rw [hfe, haddr]; exact firstWinsO_findSome _ _
  · rw [hfe, hsvd]; exact firstWinsO_findSome _ _
  · rw [hfe, hdrs]; exact firstWinsO_findSome _ _

/-- Witness input for C5: a builder with a Pname. -/
def c5pb : ProcessorBuilder :=
  { core := some Core.CortexM0, units := none, name := some "CM",
    fpu := none, mpu := none }

/-- Witness debug record naming the processor and carrying an svd. -/
def c5d1 : Debug :=
  { dp := none, ap := none, address := none, svd := some "a.svd",
    name := some "CM", unit := none, default_reset_sequence := none }

/-- Witness debug record with no name, carrying dp and another svd. -/
def c5d2 : Debug :=
  { dp := some 1, ap := none, address := none, svd := some "b.svd",
    name := none, unit := none, default_reset_sequence := none }

/-- Witness output record for C5: svd from the first record, dp from the
second, ap defaulted. -/
def c5p : Processor :=
  { core := Core.CortexM0, fpu := FPU.None, mpu := MPU.NotPresent,
    ap := AccessPort.Index 0, dp := 1, address := none, svd := some "a.svd",
    name := some "CM", unit := 0, default_reset_sequence := none }

/-- Witness for C5 at a concrete builder and two-record debug list. -/
theorem c5_debug_first_wins_witness :
    ProcessorBuilder.build c5pb [c5d1, c5d2] = .ok [c5p]
    ∧ c5p ∈ [c5p]
    ∧ ((∀ child parent : DebugsBuilder,
          DebugsBuilder.merge child parent = child ++ parent)
      ∧ FirstWinsD ([c5d1, c5d2].filter (specDebugFilter c5pb.name c5p.unit))
          (fun d => d.dp) 0 c5p.dp
      ∧ FirstWinsD ([c5d1, c5d2].filter (specDebugFilter c5pb.name c5p.unit))
          (fun d => d.ap) (AccessPort.Index 0) c5p.ap
      ∧ FirstWinsO ([c5d1, c5d2].filter (specDebugFilter c5pb.name c5p.unit))
          (fun d => d.address) c5p.address
      ∧ FirstWinsO ([c5d1, c5d2].filter (specDebugFilter c5pb.name c5p.unit))
          (fun d => d.svd) c5p.svd
      ∧ FirstWinsO ([c5d1, c5d2].filter (specDebugFilter c5pb.name c5p.unit))
          (fun d => d.default_reset_sequence) c5p.default_reset_sequence) :=
  ⟨rfl, List.mem_singleton.mpr rfl,
    c5_debug_first_wins c5pb [c5d1, c5d2] [c5p] rfl c5p (List.mem_singleton.mpr rfl)⟩

/-! Facts about ProcessorsBuilder::build and DeviceBuilder::build. -/

theorem build_ok_length {pb : ProcessorBuilder} {debugs : List Debug}
    {ps : List Processor} (h : ProcessorBuilder.build pb debugs = .ok ps) :
    ps.length = pb.units.getD 1 := by
  have := (build_ok_forall₂ h).length_eq
  simpa using this.symm

theorem processors_build_ok {pbs : ProcessorsBuilder} {debugs : List Debug}
    {procs : List Processor}
    (h : ProcessorsBuilder.build pbs debugs = .ok procs) :
    procs.length = (pbs.map (fun pb => pb.units.getD 1)).sum
    ∧ ∀ p ∈ procs, ∃ pb ∈ pbs, pb.core = some p.core := by
  unfold ProcessorsBuilder.build at h
  cases hc : collectE (pbs.map (fun p => p.build debugs)) with
  | error e => rw [hc] at h; cases h
  | ok pss =>
    rw [hc] at h
    simp only [Except.map, Except.ok.injEq] at h
    subst h
    have hf := collectE_ok_forall₂ hc
    constructor
    · rw [List.length_flatten]
      have hm : pbs.map (fun pb => pb.units.getD 1) = pss.map List.length :=
        forall₂_map_congr (f := fun pb => pb.units.getD 1) (g := List.length)
          (fun a b hr => (build_ok_length hr).symm) hf
      rw [hm]
    · intro p hp
      rcases List.mem_flatten.mp hp with ⟨ps, hps, hpmem⟩
      rcases forall₂_mem_right hf hps with ⟨pb, hpb, hbuild⟩
      obtain ⟨u, _, hbu⟩ := forall₂_mem_right (build_ok_forall₂ hbuild) hpmem
      exact ⟨pb, hpb, (buildUnit_ok hbu).1⟩

/-- C2 amended: a successfully built Device takes its name and family
strings from the builder (they are present but may be empty), its
processors sequence is exactly the per-unit expansion of its processor
builders (length is the sum of the units counts, default 1), and every
emitted Processor carries the Core resolved for its builder. -/
theorem c2_build_invariants (b : DeviceBuilder) (d : Device)
    (h : DeviceBuilder.build b = .ok d) :
    b.name = some d.name ∧ b.family = some d.family
    ∧ ∃ pbs, b.processor = some pbs
      ∧ d.processors.length = (pbs.map (fun pb => pb.units.getD 1)).sum
      ∧ ∀ p ∈ d.processors, ∃ pb ∈ pbs, pb.core = some p.core := by
  obtain ⟨nm, algs, mems, proc, dbgs, ven, fam, sub⟩ := b
  cases nm with
  | none => simp [DeviceBuilder.build] at h
  | some name =>
    cases fam with
    | none => simp [DeviceBuilder.build] at h
    | some family =>
      cases proc with
      | none => simp [DeviceBuilder.build] at h
      | some pbs =>
        simp only [DeviceBuilder.build] at h
        cases hb : ProcessorsBuilder.build pbs (DebugsBuilder.build dbgs) with
        | error e => rw [hb] at h; simp [Except.map] at h
        | ok procs =>
          rw [hb] at h
          simp only [Except.map, Except.ok.injEq] at h
          subst h
          obtain ⟨hlen, hcore⟩ := processors_build_ok hb
          exact ⟨rfl, rfl, pbs, rfl, hlen, hcore⟩

/-- Witness builder for C2: a complete single-core device builder. -/
def c2pb : ProcessorBuilder :=
  { core := some Core.CortexM3, units := none, name := none, fpu := none, mpu := none }

/-- Witness device builder for C2. -/
def c2b : DeviceBuilder :=
  { name := some "X", algorithms := [], memories := [], processor := some [c2pb],
    debugs := [], vendor := none, family := some "F", sub_family := none }

/-- Witness processor record for C2. -/
def c2proc : Processor :=
  { core := Core.CortexM3, fpu := FPU.None, mpu := MPU.NotPresent,
    ap := AccessPort.Index 0, dp := 0, address := none, svd := none, name := none,
    unit := 0, default_reset_sequence := none }

/-- Witness device for C2. -/
def c2d : Device :=
  { name := "X", memories := [], algorithms := [],
    processors := [c2proc],
    vendor := none, family := "F", sub_family := none }

/-- Witness for C2 at a concrete builder. -/
theorem c2_build_invariants_witness :
    DeviceBuilder.build c2b = .ok c2d
    ∧ (c2b.name = some c2d.name ∧ c2b.family = some c2d.family
      ∧ ∃ pbs, c2b.processor = some pbs
        ∧ c2d.processors.length = (pbs.map (fun pb => pb.units.getD 1)).sum
        ∧ ∀ p ∈ c2d.processors, ∃ pb ∈ pbs, pb.core = some p.core) :=
  ⟨rfl, c2_build_invariants c2b c2d rfl⟩

/-- Counterexample input for C2: Dfamily and Dname are empty strings and
the processor declares Punits zero. -/
def c2Root : XNode :=
  .mk "devices" []
    [.mk "family" [("Dfamily", "")]
      [.mk "device" [("Dname", "")]
        [.mk "processor" [("Dcore", "Cortex-M0"), ("Punits", "0")] []]]]

/-- Counterexample for C2: the parser emits a device whose name and
family are empty strings and whose processors sequence is empty. -/
theorem c2_counterexample :
    Except.map (fun m => m.map (fun q => (q.2.name, q.2.family, q.2.processors)))
      (Devices.from_elem c2Root)
      = .ok [("", "", ([] : List Processor))] := rfl

/-! Facts about error propagation through the tree walker (C1). -/

theorem from_children_error {c : XNode} {err : String}
    (h : parse_family c = .error err) :
    ∀ {cs : List XNode}, c ∈ cs → ∀ res, ∃ e, Devices.from_children cs res = .error e := by
  intro cs
  induction cs with
  | nil => intro hc; cases hc
  | cons x xs ih =>
    intro hc res
    cases hx : parse_family x with
    | error e => exact ⟨e, by simp [Devices.from_children, hx]⟩
    | ok ds =>
      rcases List.mem_cons.mp hc with h' | h'
      · subst h'; rw [hx] at h; cases h
      · rcases ih h' (ds.foldl (fun m dev => Devices.insert m dev.name dev) res)
          with ⟨e, he⟩
        refine ⟨e, ?_⟩
        simpa [Devices.from_children, hx] using he

/-- C1 amended: a build() failure of one device is fatal to the whole
parse: parse_family returns an error for the entire family, and
Devices::from_elem propagates it, so no devices at all are returned. -/
theorem c1_build_failure_aborts_parse (root c : XNode) (b : DeviceBuilder)
    (err : String) (hc : c ∈ root.children) (hb : b ∈ (family_fold c).2)
    (herr : (b.add_parent (family_fold c).1).bind DeviceBuilder.build = .error err) :
    (∃ e, parse_family c = .error e)
    ∧ ∃ e, Devices.from_elem root = .error e := by
  have hfam : ∃ e, parse_family c = .error e := by
    unfold parse_family
    exact collectE_error_of_mem hb herr
  rcases hfam with ⟨e, he⟩
  exact ⟨⟨e, he⟩, from_children_error he hc []⟩

/-- Counterexample family for C1: D1 is complete, D2 has no processor. -/
def c1Fam : XNode :=
  .mk "family" [("Dfamily", "F"), ("Dvendor", "V")]
    [.mk "device" [("Dname", "D1")] [.mk "processor" [("Dcore", "Cortex-M0")] []],
     .mk "device" [("Dname", "D2")] []]

/-- Counterexample input for C1. -/
def c1Root : XNode := .mk "devices" [] [c1Fam]

/-- Counterexample for C1: one device's build failure makes the whole
parse return an error, so the healthy sibling D1 does not appear either. -/
theorem c1_counterexample :
    Devices.from_elem c1Root = .error "Device found without a processor D2" := rfl

/-- The builder that parse_device collects for the D2 element of the C1
counterexample family. -/
def c1b2 : DeviceBuilder :=
  { name := some "D2", algorithms := [], memories := [], processor := none,
    debugs := [], vendor := none, family := none, sub_family := none }

/-- Witness for C1's amended theorem at the counterexample family. -/
theorem c1_build_failure_aborts_parse_witness :
    c1Fam ∈ c1Root.children
    ∧ c1b2 ∈ (family_fold c1Fam).2
    ∧ (c1b2.add_parent (family_fold c1Fam).1).bind DeviceBuilder.build
        = .error "Device found without a processor D2"
    ∧ ((∃ e, parse_family c1Fam = .error e)
      ∧ ∃ e, Devices.from_elem c1Root = .error e) :=
  ⟨List.mem_singleton.mpr rfl, by decide, by rfl,
    c1_build_failure_aborts_parse c1Root c1Fam c1b2
      "Device found without a processor D2"
      (List.mem_singleton.mpr rfl) (by decide) (by rfl)⟩

/-! Facts about merge_memories (C7). -/

/-- Uniqueness of the region keys of a memory map. -/
def keysNodup (m : Memories) : Prop := (m.map Prod.fst).Nodup

theorem insert_absent (m : Memories) (k : String) (v : Memory)
    (h : m.any (fun p => p.1 == k) = false) :
    Memories.insert m k v = m ++ [(k, v)] := by
  unfold Memories.insert
  rw [h]
  simp

theorem find?_filter_of_imp {α : Type} {p f : α → Bool} :
    ∀ {l : List α}, (∀ a ∈ l, p a = true → f a = true) →
      (l.filter f).find? p = l.find? p := by
  intro l
  induction l with
  | nil => intro _; rfl
  | cons a as ih =>
    intro h
    by_cases hf : f a
    · rw [List.filter_cons_of_pos hf]
      by_cases hp : p a
      · rw [List.find?_cons_of_pos _ hp, List.find?_cons_of_pos _ hp]
      · rw [List.find?_cons_of_neg _ (by simpa using hp),
          List.find?_cons_of_neg _ (by simpa using hp)]
        exact ih (fun x hx => h x (List.mem_cons_of_mem a hx))
    · rw [List.filter_cons_of_neg (by simpa using hf)]
      have hp : p a = false := by
        by_contra hcon
        exact hf (h a (List.mem_cons_self a as) (by simpa using hcon))
      rw [List.find?_cons_of_neg _ (by simp [hp])]
      exact ih (fun x hx => h x (List.mem_cons_of_mem a hx))

theorem foldl_insert_append :
    ∀ (l m : Memories), (∀ q ∈ l, ∀ p ∈ m, p.1 ≠ q.1) → (l.map Prod.fst).Nodup →
      l.foldl (fun m q => Memories.insert m q.1 q.2) m = m ++ l := by
  intro l
  induction l with
  | nil => intro m _ _; simp
  | cons q rest ih =>
    intro m hdisj hnodup
    rw [List.foldl_cons]
    have hany : m.any (fun p => p.1 == q.1) = false := by
      rw [List.any_eq_false]
      intro p hp
      simpa using hdisj q (List.mem_cons_self q rest) p hp
    rw [insert_absent m q.1 q.2 hany]
    rw [List.map_cons, List.nodup_cons] at hnodup
    rw [ih (m ++ [(q.1, q.2)]) ?_ hnodup.2]
    · simp
    · intro q' hq' p hp
      rcases List.mem_append.mp hp with hm | hs
      · exact hdisj q' (List.mem_cons_of_mem q hq') p hm
      · rcases List.mem_singleton.mp hs with rfl
        intro heq
        exact hnodup.1 (heq ▸ List.mem_map_of_mem Prod.fst hq')

theorem merge_memories_eq_append (lhs rhs : Memories) (h2 : keysNodup rhs) :
    merge_memories lhs rhs
      = lhs ++ rhs.filter (fun q => !(lhs.any (fun p => p.1 == q.1))) := by
  unfold merge_memories
  apply foldl_insert_append
  · intro q hq p hp
    have hpred := List.of_mem_filter hq
    simp only [Bool.not_eq_true', List.any_eq_false] at hpred
    intro heq
    exact absurd (by simpa using heq : (p.1 == q.1) = true) (by simp [hpred p hp])
  · exact ((h2.sublist ((List.filter_sublist rhs).map Prod.fst)) : _)

/-- C7: merging memories keeps unique region keys, keeps every child
entry unchanged, adds parent entries only for keys the child lacks, and
DeviceBuilder::add_parent merges memories exactly this way with the
child as left operand, so a region declared at both levels keeps the
child-level value. -/
theorem c7_memory_merge_precedence (lhs rhs : Memories) (c p : DeviceBuilder)
    (h1 : keysNodup lhs) (h2 : keysNodup rhs) :
    keysNodup (merge_memories lhs rhs)
    ∧ (∀ k v, Memories.lookup lhs k = some v →
        Memories.lookup (merge_memories lhs rhs) k = some v)
    ∧ (∀ k, Memories.lookup lhs k = none →
        Memories.lookup (merge_memories lhs rhs) k = Memories.lookup rhs k)
    ∧ (∀ r, DeviceBuilder.add_parent c p = .ok r →
        r.memories = merge_memories c.memories p.memories) := by
  rw [merge_memories_eq_append lhs rhs h2]
  refine ⟨?_, ?_, ?_, ?_⟩
  · unfold keysNodup
    rw [List.map_append, List.nodup_append]
    refine ⟨h1, (h2.sublist ((List.filter_sublist rhs).map Prod.fst)), ?_⟩
    intro a ha hb
    rcases List.mem_map.mp hb with ⟨q, hq, hqa⟩
    have hpred := List.of_mem_filter hq
    simp only [Bool.not_eq_true', List.any_eq_false] at hpred
    rcases List.mem_map.mp ha with ⟨pp, hpp, hppa⟩
    have := hpred pp hpp
    rw [hppa, hqa] at this
    simp at this
  · intro k v hv
    unfold Memories.lookup at hv ⊢
    cases hfind : lhs.find? (fun q => q.1 == k) with
    | none => rw [hfind] at hv; cases hv
    | some pair =>
      rw [hfind] at hv
      rw [find?_append_some hfind]
      exact hv
  · intro k hk
    unfold Memories.lookup at hk ⊢
    cases hfind : lhs.find? (fun q => q.1 == k) with
    | some pair => rw [hfind] at hk; cases hk
    | none =>
      rw [find?_append_none hfind]
      congr 1
      apply find?_filter_of_imp
      intro a _ hpa
      have hall := List.find?_eq_none.mp hfind
      simp only [Bool.not_eq_true', List.any_eq_false]
      intro pp hpp
      have := hall pp hpp
      have hak : a.1 = k := by simpa using hpa
      simp only [hak]
      simpa using this
  · intro r h
    unfold DeviceBuilder.add_parent at h
    cases hc : c.processor with
    | none =>
      rw [hc] at h
      simp only [Except.map, Except.ok.injEq] at h
      rw [← h]
    | some old =>
      rw [hc] at h
      cases hpp : p.processor with
      | none =>
        simp only [hpp, ProcessorsBuilder.merge, Except.map, Except.ok.injEq] at h
        rw [← h]
      | some par =>
        simp only [hpp, ProcessorsBuilder.merge, Except.map, Except.ok.injEq] at h
        rw [← h]

/-- Witness permissions for C7. -/
def c7perm : MemoryPermissions :=
  { read := true, write := true, execute := false, peripheral := false,
    secure := false, non_secure := false, non_secure_callable := false }

/-- Witness memory values for C7. -/
def c7mA : Memory :=
  { p_name := none, access := c7perm, start := 8192, size := 512,
    startup := false, default := false }

/-- A second, different witness memory value for C7. -/
def c7mB : Memory :=
  { p_name := none, access := c7perm, start := 4096, size := 256,
    startup := false, default := false }

/-- Witness child memory map for C7 (device level). -/
def c7lhs : Memories := [("IRAM1", c7mA)]

/-- Witness parent memory map for C7 (family level), declaring the same
key with a different value plus a fresh key. -/
def c7rhs : Memories := [("IRAM1", c7mB), ("IROM1", c7mB)]

/-- Witness empty device builders for C7's add_parent conjunct. -/
def c7child : DeviceBuilder :=
  { name := some "D", algorithms := [], memories := c7lhs, processor := none,
    debugs := [], vendor := none, family := none, sub_family := none }

/-- Witness parent device builder for C7. -/
def c7parent : DeviceBuilder :=
  { name := none, algorithms := [], memories := c7rhs, processor := none,
    debugs := [], vendor := none, family := some "F", sub_family := none }

/-- Witness for C7 at concrete overlapping memory maps. -/
theorem c7_memory_merge_precedence_witness :
    keysNodup c7lhs ∧ keysNodup c7rhs
    ∧ (keysNodup (merge_memories c7lhs c7rhs)
      ∧ (∀ k v, Memories.lookup c7lhs k = some v →
          Memories.lookup (merge_memories c7lhs c7rhs) k = some v)
      ∧ (∀ k, Memories.lookup c7lhs k = none →
          Memories.lookup (merge_memories c7lhs c7rhs) k = Memories.lookup c7rhs k)
      ∧ (∀ r, DeviceBuilder.add_parent c7child c7parent = .ok r →
          r.memories = merge_memories c7child.memories c7parent.memories)) :=
  ⟨by unfold keysNodup; decide, by unfold keysNodup; decide,
    c7_memory_merge_precedence c7lhs c7rhs c7child c7parent
      (by unfold keysNodup; decide) (by unfold keysNodup; decide)⟩

/-! Facts about the Pname-keyed processor merge (C8). -/

/-- Lookup of a processor builder by Pname in a builder list. -/
def findByName (l : ProcessorsBuilder) (k : Option String) : Option ProcessorBuilder :=
  l.find? (fun pb => pb.name == k)

/-- Uniqueness of the Pnames of a builder list. -/
def pbNamesNodup (l : ProcessorsBuilder) : Prop :=
  (l.map (fun pb => pb.name)).Nodup

/-- Every map entry's value carries the entry's key as its Pname. -/
def pbmInv (m : List (Option String × ProcessorBuilder)) : Prop :=
  ∀ q ∈ m, q.2.name = q.1

theorem find?_cons_pos {α : Type} (p : α → Bool) (a : α) (l : List α)
    (h : p a = true) : (a :: l).find? p = some a :=
  List.find?_cons_of_pos l h

theorem find?_cons_neg {α : Type} (p : α → Bool) (a : α) (l : List α)
    (h : p a = false) : (a :: l).find? p = l.find? p :=
  List.find?_cons_of_neg l (by simp [h])

theorem lookup_map_replace (k : Option String) (v : ProcessorBuilder) :
    ∀ m : List (Option String × ProcessorBuilder),
      m.any (fun q => q.1 == k) = true →
      pbmLookup (m.map (fun q => if q.1 == k then (k, v) else q)) k = some v := by
  intro m
  induction m with
  | nil => intro h; cases h
  | cons q rest ih =>
    intro h
    unfold pbmLookup
    rw [List.map_cons]
    by_cases hq : (q.1 == k) = true
    · rw [if_pos hq, find?_cons_pos (fun q => q.1 == k) (k, v) _ (by simp)]
      rfl
    · rw [if_neg hq, find?_cons_neg (fun q => q.1 == k) q _ (by simpa using hq)]
      have hrest : rest.any (fun q => q.1 == k) = true := by
        rcases List.any_eq_true.mp h with ⟨x, hx, hpx⟩
        rcases List.mem_cons.mp hx with rfl | hx'
        · exact absurd hpx (by simpa using hq)
        · exact List.any_eq_true.mpr ⟨x, hx', hpx⟩
      exact ih hrest

theorem lookup_map_replace_ne (k k' : Option String) (v : ProcessorBuilder)
    (hne : k' ≠ k) :
    ∀ m : List (Option String × ProcessorBuilder),
      pbmLookup (m.map (fun q => if q.1 == k then (k, v) else q)) k'
        = pbmLookup m k' := by
  intro m
  induction m with
  | nil => rfl
  | cons q rest ih =>
    unfold pbmLookup
    rw [List.map_cons]
    by_cases hq : (q.1 == k) = true
    · have hq' : q.1 = k := by simpa using hq
      rw [if_pos hq]
      rw [find?_cons_neg (fun q => q.1 == k') (k, v) _
        (by simp only [beq_eq_false_iff_ne, ne_eq]; exact fun h => hne h.symm)]
      rw [find?_cons_neg (fun q => q.1 == k') q _
        (by simp only [beq_eq_false_iff_ne, ne_eq, hq']; exact fun h => hne h.symm)]
      exact ih
    · rw [if_neg hq]
      by_cases hqk' : (q.1 == k') = true
      · rw [find?_cons_pos (fun q => q.1 == k') q _ hqk',
          find?_cons_pos (fun q => q.1 == k') q _ hqk']
      · rw [find?_cons_neg (fun q => q.1 == k') q _ (by simpa using hqk'),
          find?_cons_neg (fun q => q.1 == k') q _ (by simpa using hqk')]
        exact ih

theorem pbmLookup_insert_self (m : List (Option String × ProcessorBuilder))
    (k : Option String) (v : ProcessorBuilder) :
    pbmLookup (pbmInsert m k v) k = some v := by
  unfold pbmInsert
  by_cases hany : (m.any (fun q => q.1 == k)) = true
  · rw [if_pos hany]
    exact lookup_map_replace k v m hany
  · rw [if_neg hany]
    unfold pbmLookup
    have hnone : m.find? (fun q => q.1 == k) = none := by
      rw [List.find?_eq_none]
      intro x hx hpx
      exact hany (List.any_eq_true.mpr ⟨x, hx, hpx⟩)
    rw [find?_append_none hnone,
      find?_cons_pos (fun q => q.1 == k) (k, v) _ (by simp)]
    rfl

theorem pbmLookup_insert_ne (m : List (Option String × ProcessorBuilder))
    (k k' : Option String) (v : ProcessorBuilder) (hne : k' ≠ k) :
    pbmLookup (pbmInsert m k v) k' = pbmLookup m k' := by
  unfold pbmInsert
  by_cases hany : (m.any (fun q => q.1 == k)) = true
  · rw [if_pos hany]
    exact lookup_map_replace_ne k k' v hne m
  · rw [if_neg hany]
    unfold pbmLookup
    cases hf : m.find? (fun q => q.1 == k') with
    | some x => rw [find?_append_some hf]
    | none =>
      rw [find?_append_none hf,
        find?_cons_neg (fun q => q.1 == k') (k, v) []
          (by simp only [beq_eq_false_iff_ne, ne_eq]; exact fun h => hne h.symm)]
      rfl

theorem pbmInv_insert {m : List (Option String × ProcessorBuilder)}
    {k : Option String} {v : ProcessorBuilder}
    (hm : pbmInv m) (hv : v.name = k) : pbmInv (pbmInsert m k v) := by
  unfold pbmInsert
  by_cases hany : (m.any (fun q => q.1 == k)) = true
  · rw [if_pos hany]
    intro q hq
    rcases List.mem_map.mp hq with ⟨q₀, hq₀, hqe⟩
    by_cases h : (q₀.1 == k) = true
    · rw [if_pos h] at hqe
      rw [← hqe]
      exact hv
    · rw [if_neg h] at hqe
      rw [← hqe]
      exact hm q₀ hq₀
  · rw [if_neg hany]
    intro q hq
    rcases List.mem_append.mp hq with h | h
    · exact hm q h
    · rcases List.mem_singleton.mp h with rfl
      exact hv

theorem pbmInv_lookup {m : List (Option String × ProcessorBuilder)}
    {k : Option String} {cur : ProcessorBuilder}
    (hm : pbmInv m) (h : pbmLookup m k = some cur) : cur.name = k := by
  unfold pbmLookup at h
  cases hf : m.find? (fun q => q.1 == k) with
  | none => rw [hf] at h; cases h
  | some q =>
    rw [hf] at h
    simp only [Option.map_some', Option.some.injEq] at h
    have hq := List.find?_some hf
    have hqm := List.mem_of_find?_eq_some hf
    rw [← h, hm q hqm]
    exact beq_iff_eq.mp (by simpa using hq)

theorem pb_merge_self (p : ProcessorBuilder) : p.merge p = p := by
  cases p
  simp [ProcessorBuilder.merge, Option.or_self]

theorem child_fold_none :
    ∀ (c : ProcessorsBuilder) (m : List (Option String × ProcessorBuilder))
      (k : Option String), findByName c k = none →
      pbmLookup (c.foldl (fun m p => pbmInsert m p.name p) m) k = pbmLookup m k := by
  intro c
  induction c with
  | nil => intro m k _; rfl
  | cons p rest ih =>
    intro m k hnone
    unfold findByName at hnone
    by_cases hk : (p.name == k) = true
    · rw [find?_cons_pos (fun pb => pb.name == k) p rest hk] at hnone
      cases hnone
    · rw [find?_cons_neg (fun pb => pb.name == k) p rest (by simpa using hk)] at hnone
      rw [List.foldl_cons, ih _ k hnone,
        pbmLookup_insert_ne _ _ _ _ (fun h => hk (by simp [h]))]

theorem child_fold_some :
    ∀ (c : ProcessorsBuilder) (m : List (Option String × ProcessorBuilder))
      (k : Option String) (pb : ProcessorBuilder),
      pbNamesNodup c → findByName c k = some pb →
      pbmLookup (c.foldl (fun m p => pbmInsert m p.name p) m) k = some pb := by
  intro c
  induction c with
  | nil => intro m k pb _ hsome; cases hsome
  | cons p rest ih =>
    intro m k pb hnodup hsome
    unfold pbNamesNodup at hnodup
    rw [List.map_cons, List.nodup_cons] at hnodup
    unfold findByName at hsome
    rw [List.foldl_cons]
    by_cases hk : (p.name == k) = true
    · rw [find?_cons_pos (fun pb => pb.name == k) p rest hk] at hsome
      have hpb : p = pb := by simpa using hsome
      subst hpb
      have hk' : p.name = k := by simpa using hk
      have hrest : findByName rest k = none := by
        unfold findByName
        rw [List.find?_eq_none]
        intro x hx hbx
        have hxk : x.name = k := by simpa using hbx
        exact hnodup.1 (hk' ▸ hxk ▸ List.mem_map_of_mem (fun pb => pb.name) hx)
      rw [child_fold_none _ _ _ hrest, ← hk']
      exact pbmLookup_insert_self m p.name p
    · rw [find?_cons_neg (fun pb => pb.name == k) p rest (by simpa using hk)] at hsome
      rw [ih _ k pb hnodup.2 hsome]

theorem parent_fold_none :
    ∀ (par : ProcessorsBuilder) (m : List (Option String × ProcessorBuilder))
      (k : Option String), findByName par k = none →
      pbmLookup (par.foldl (fun m p =>
        pbmInsert m p.name (((pbmLookup m p.name).getD p).merge p)) m) k
        = pbmLookup m k := by
  intro par
  induction par with
  | nil => intro m k _; rfl
  | cons q rest ih =>
    intro m k hnone
    unfold findByName at hnone
    by_cases hk : (q.name == k) = true
    · rw [find?_cons_pos (fun pb => pb.name == k) q rest hk] at hnone
      cases hnone
    · rw [find?_cons_neg (fun pb => pb.name == k) q rest (by simpa using hk)] at hnone
      rw [List.foldl_cons, ih _ k hnone,
        pbmLookup_insert_ne _ _ _ _ (fun h => hk (by simp [h]))]

theorem parent_fold_some :
    ∀ (par : ProcessorsBuilder) (m : List (Option String × ProcessorBuilder))
      (k : Option String) (pb : ProcessorBuilder),
      pbNamesNodup par → findByName par k = some pb →
      pbmLookup (par.foldl (fun m p =>
        pbmInsert m p.name (((pbmLookup m p.name).getD p).merge p)) m) k
        = some (((pbmLookup m k).getD pb).merge pb) := by
  intro par
  induction par with
  | nil => intro m k pb _ hsome; cases hsome
  | cons q rest ih =>
    intro m k pb hnodup hsome
    unfold pbNamesNodup at hnodup
    rw [List.map_cons, List.nodup_cons] at hnodup
    unfold findByName at hsome
    rw [List.foldl_cons]
    by_cases hk : (q.name == k) = true
    · rw [find?_cons_pos (fun pb => pb.name == k) q rest hk] at hsome
      have hpb : q = pb := by simpa using hsome
      subst hpb
      have hk' : q.name = k := by simpa using hk
      have hrest : findByName rest k = none := by
        unfold findByName
        rw [List.find?_eq_none]
        intro x hx hbx
        have hxk : x.name = k := by simpa using hbx
        exact hnodup.1 (hk' ▸ hxk ▸ List.mem_map_of_mem (fun pb => pb.name) hx)
      rw [parent_fold_none _ _ _ hrest, ← hk']
      exact pbmLookup_insert_self m q.name _
    · rw [find?_cons_neg (fun pb => pb.name == k) q rest (by simpa using hk)] at hsome
      rw [ih _ k pb hnodup.2 hsome,
        pbmLookup_insert_ne _ _ _ _ (fun h => hk (by simp [h]))]

theorem findByName_values :
    ∀ {m : List (Option String × ProcessorBuilder)}, pbmInv m →
      ∀ k, findByName (m.map (fun q => q.2)) k = pbmLookup m k := by
  intro m
  induction m with
  | nil => intro _ k; rfl
  | cons q rest ih =>
    intro hm k
    have hq : q.2.name = q.1 := hm q (List.mem_cons_self q rest)
    have hrest : pbmInv rest := fun x hx => hm x (List.mem_cons_of_mem _ hx)
    unfold findByName pbmLookup
    rw [List.map_cons]
    by_cases hk : (q.1 == k) = true
    · rw [find?_cons_pos (fun pb => pb.name == k) q.2 _ (by simp only [hq]; exact hk),
        find?_cons_pos (fun q => q.1 == k) q rest hk]
      rfl
    · rw [find?_cons_neg (fun pb => pb.name == k) q.2 _
          (by simp only [hq]; simpa using hk),
        find?_cons_neg (fun q => q.1 == k) q rest (by simpa using hk)]
      exact ih hrest k

theorem pbmInv_child_fold :
    ∀ (c : ProcessorsBuilder) (m : List (Option String × ProcessorBuilder)),
      pbmInv m → pbmInv (c.foldl (fun m p => pbmInsert m p.name p) m) := by
  intro c
  induction c with
  | nil => intro m hm; exact hm
  | cons p rest ih =>
    intro m hm
    rw [List.foldl_cons]
    exact ih _ (pbmInv_insert hm rfl)

theorem pbmInv_parent_fold :
    ∀ (par : ProcessorsBuilder) (m : List (Option String × ProcessorBuilder)),
      pbmInv m → pbmInv (par.foldl (fun m p =>
        pbmInsert m p.name (((pbmLookup m p.name).getD p).merge p)) m) := by
  intro par
  induction par with
  | nil => intro m hm; exact hm
  | cons q rest ih =>
    intro m hm
    rw [List.foldl_cons]
    refine ih _ (pbmInv_insert hm ?_)
    cases hl : pbmLookup m q.name with
    | none => simp [ProcessorBuilder.merge, Option.or_self]
    | some cur =>
      have := pbmInv_lookup hm hl
      simp [ProcessorBuilder.merge, this, Option.or_self]

/-- C8: merging a child's processor builders with a parent's groups both
sides by optional Pname; a key only on one side keeps that side's entry,
a key on both sides merges attribute-wise with child precedence (core,
units, name, fpu, mpu each taken from the child when present, else from
the parent); and a child with no processor builders takes the parent's
clone in DeviceBuilder::add_parent. -/
theorem c8_processor_merge_by_pname (child parent : DeviceBuilder)
    (cpbs ppbs res : ProcessorsBuilder)
    (hcn : pbNamesNodup cpbs) (hpn : pbNamesNodup ppbs)
    (hm : ProcessorsBuilder.merge cpbs (some ppbs) = .ok res) (k : Option String) :
    (child.processor = none → ∀ r, DeviceBuilder.add_parent child parent = .ok r →
      r.processor = parent.processor)
    ∧ findByName res k =
        (match findByName cpbs k, findByName ppbs k with
         | none, none => none
         | some cb, none => some cb
         | none, some pb => some pb
         | some cb, some pb => some
             { core := cb.core.or pb.core, units := cb.units.or pb.units,
               name := cb.name.or pb.name, fpu := cb.fpu.or pb.fpu,
               mpu := cb.mpu.or pb.mpu }) := by
  constructor
  · intro hnone r h
    unfold DeviceBuilder.add_parent at h
    rw [hnone] at h
    simp only [Except.map, Except.ok.injEq] at h
    rw [← h]
  · unfold ProcessorsBuilder.merge at hm
    simp only [Except.ok.injEq] at hm
    subst hm
    have hinv : pbmInv (ppbs.foldl (fun m p =>
        pbmInsert m p.name (((pbmLookup m p.name).getD p).merge p))
        (cpbs.foldl (fun m p => pbmInsert m p.name p) [])) :=
      pbmInv_parent_fold ppbs _
        (pbmInv_child_fold cpbs [] (fun q hq => by cases hq))
    rw [findByName_values hinv k]
    cases hcf : findByName cpbs k with
    | some cb =>
      have hlc : pbmLookup (cpbs.foldl (fun m p => pbmInsert m p.name p) []) k
          = some cb := child_fold_some cpbs [] k cb hcn hcf
      cases hpf : findByName ppbs k with
      | some pb =>
        rw [parent_fold_some ppbs _ k pb hpn hpf, hlc]
        rfl
      | none =>
        rw [parent_fold_none ppbs _ k hpf, hlc]
    | none =>
      have hlc : pbmLookup (cpbs.foldl (fun m p => pbmInsert m p.name p) []) k
          = none := (child_fold_none cpbs [] k hcf).trans rfl
      cases hpf : findByName ppbs k with
      | some pb =>
        rw [parent_fold_some ppbs _ k pb hpn hpf, hlc]
        simp [pb_merge_self]
      | none =>
        rw [parent_fold_none ppbs _ k hpf, hlc]

/-- Witness child builders for C8: key A lacks a core, key B complete. -/
def c8cbA : ProcessorBuilder :=
  { core := none, units := some 2, name := some "A", fpu := none, mpu := none }

/-- Second witness child builder for C8. -/
def c8cbB : ProcessorBuilder :=
  { core := some Core.CortexM4, units := none, name := some "B", fpu := none,
    mpu := none }

/-- Witness parent builder for C8 sharing key A with the child. -/
def c8pbA : ProcessorBuilder :=
  { core := some Core.CortexM7, units := none, name := some "A",
    fpu := some FPU.SinglePrecision, mpu := none }

/-- Witness parent builder for C8 with the distinct absent-name key. -/
def c8pbC : ProcessorBuilder :=
  { core := some Core.CortexM0, units := none, name := none, fpu := none,
    mpu := none }

/-- The value ProcessorsBuilder::merge computes for the witness lists. -/
def c8res : ProcessorsBuilder :=
  [c8cbA.merge c8pbA, c8cbB, c8pbC.merge c8pbC]

/-- Witness device builder for C8's add_parent conjunct. -/
def c8dev : DeviceBuilder :=
  { name := some "D8", algorithms := [], memories := [], processor := none,
    debugs := [], vendor := none, family := some "F8", sub_family := none }

/-- Witness for C8 at the shared key A: the merged entry takes units
from the child and core and fpu from the parent. -/
theorem c8_processor_merge_by_pname_witness :
    pbNamesNodup [c8cbA, c8cbB] ∧ pbNamesNodup [c8pbA, c8pbC]
    ∧ ProcessorsBuilder.merge [c8cbA, c8cbB] (some [c8pbA, c8pbC]) = .ok c8res
    ∧ ((c8dev.processor = none → ∀ r, DeviceBuilder.add_parent c8dev c8dev = .ok r →
          r.processor = c8dev.processor)
      ∧ findByName c8res (some "A") =
          (match findByName [c8cbA, c8cbB] (some "A"),
              findByName [c8pbA, c8pbC] (some "A") with
           | none, none => none
           | some cb, none => some cb
           | none, some pb => some pb
           | some cb, some pb => some
               { core := cb.core.or pb.core, units := cb.units.or pb.units,
                 name := cb.name.or pb.name, fpu := cb.fpu.or pb.fpu,
                 mpu := cb.mpu.or pb.mpu })) :=
  ⟨by unfold pbNamesNodup; decide, by unfold pbNamesNodup; decide, rfl,
    c8_processor_merge_by_pname c8dev c8dev [c8cbA, c8cbB] [c8pbA, c8pbC] c8res
      (by unfold pbNamesNodup; decide) (by unfold pbNamesNodup; decide)
      rfl (some "A")⟩

/-! Facts about the debug / access-port resolver (C4). -/

theorem startsWith_apv1 : strStartsWith "accessportV1" "accessportV" = true := by
  decide

theorem startsWith_apv2 : strStartsWith "accessportV2" "accessportV" = true := by
  decide

/-- C4 amended: for a debug element whose parent has an accessportV1 or
accessportV2 child, __apid is required; the resolver picks the parent's
first child whose tag starts with accessportV and whose __apid matches
(for inputs whose accessportV-prefixed children are all V1/V2 this is
the first matching V1/V2 descriptor); with no match it fails with the
message Unable do find Access Port with id N (sic, with a trailing
period); a V1 match yields dp = __dp and ap = Index(index) off the
descriptor, a V2 match yields dp = __dp and ap = Address(address parsed
as hex); without accessportV children, __dp and __ap are read off the
debug element with __ap treated as Index. -/
theorem c4_access_port_resolution (e p : XNode)
    (htags : ∀ c ∈ p.children, strStartsWith c.tag "accessportV" = true →
      c.tag = "accessportV1" ∨ c.tag = "accessportV2") :
    (hasAccessPortChild p = true → attr_nat? e "__apid" (2 ^ 32) = none →
      ∃ err, DebugBuilder.from_elem_and_parent e p = .error err)
    ∧ (∀ n, hasAccessPortChild p = true → attr_nat? e "__apid" (2 ^ 32) = some n →
      (∀ c ∈ p.children, ¬((c.tag = "accessportV1" ∨ c.tag = "accessportV2")
          ∧ attr_nat? c "__apid" (2 ^ 32) = some n)) →
      DebugBuilder.from_elem_and_parent e p
        = .error ("Unable do find Access Port with id " ++ toString n ++ "."))
    ∧ (∀ n l₁ c l₂, hasAccessPortChild p = true →
      attr_nat? e "__apid" (2 ^ 32) = some n →
      p.children = l₁ ++ c :: l₂ →
      (∀ x ∈ l₁, ¬((x.tag = "accessportV1" ∨ x.tag = "accessportV2")
          ∧ attr_nat? x "__apid" (2 ^ 32) = some n)) →
      (c.tag = "accessportV1" ∨ c.tag = "accessportV2") →
      attr_nat? c "__apid" (2 ^ 32) = some n →
      DebugBuilder.from_elem_and_parent e p = .ok
        { dp := attr_nat? c "__dp" (2 ^ 8),
          ap := if c.tag = "accessportV1"
            then (attr_nat? c "index" (2 ^ 8)).map AccessPort.Index
            else (attr_hex? c "address" (2 ^ 64)).map AccessPort.Address,
          address := attr_nat? e "address" (2 ^ 32),
          svd := e.attribute "svd",
          name := e.attribute "Pname",
          unit := attr_nat? e "Punit" (2 ^ 64),
          default_reset_sequence := e.attribute "defaultResetSequence" })
    ∧ (hasAccessPortChild p = false →
      DebugBuilder.from_elem_and_parent e p = .ok
        { dp := attr_nat? e "__dp" (2 ^ 8),
          ap := (attr_nat? e "__ap" (2 ^ 8)).map AccessPort.Index,
          address := attr_nat? e "address" (2 ^ 32),
          svd := e.attribute "svd",
          name := e.attribute "Pname",
          unit := attr_nat? e "Punit" (2 ^ 64),
          default_reset_sequence := e.attribute "defaultResetSequence" }) := by
  refine ⟨?_, ?_, ?_, ?_⟩
  · intro hv hnone
    refine ⟨"missing or invalid attribute __apid", ?_⟩
    unfold DebugBuilder.from_elem_and_parent attr_nat
    rw [hnone]
    simp only [hv, eq_self_iff_true, if_true]
    rfl
  · intro n hv happ hnomatch
    have hfind : p.children.find? (fun c =>
        strStartsWith c.tag "accessportV"
          && (attr_nat? c "__apid" (2 ^ 32) == some n)) = none := by
      rw [List.find?_eq_none]
      intro x hx hcon
      rw [Bool.and_eq_true] at hcon
      exact hnomatch x hx ⟨htags x hx hcon.1, by simpa using hcon.2⟩
    unfold DebugBuilder.from_elem_and_parent attr_nat
    rw [happ]
    simp only [hv, eq_self_iff_true, if_true, hfind]
    rfl
  · intro n l₁ c l₂ hv happ hsplit hfl hc hapid
    have hpc : (strStartsWith c.tag "accessportV"
        && (attr_nat? c "__apid" (2 ^ 32) == some n)) = true := by
      rw [Bool.and_eq_true]
      refine ⟨?_, by simp only [hapid, beq_self_eq_true]⟩
      cases hc with
      | inl h => rw [h]; exact startsWith_apv1
      | inr h => rw [h]; exact startsWith_apv2
    have hfl2 : ∀ x ∈ l₁, (strStartsWith x.tag "accessportV"
        && (attr_nat? x "__apid" (2 ^ 32) == some n)) = false := by
      intro x hx
      by_cases hcon : (strStartsWith x.tag "accessportV"
          && (attr_nat? x "__apid" (2 ^ 32) == some n)) = true
      · rw [Bool.and_eq_true] at hcon
        have hxmem : x ∈ p.children := by
          rw [hsplit]
          exact List.mem_append.mpr (Or.inl hx)
        exact absurd ⟨htags x hxmem hcon.1, by simpa using hcon.2⟩ (hfl x hx)
      · simpa using hcon
    have hfind : p.children.find? (fun c =>
        strStartsWith c.tag "accessportV"
          && (attr_nat? c "__apid" (2 ^ 32) == some n)) = some c := by
      rw [hsplit]
      exact find?_split l₂ hfl2 hpc
    unfold DebugBuilder.from_elem_and_parent attr_nat
    rw [happ]
    simp only [hv, eq_self_iff_true, if_true, hfind]
    cases hc with
    | inl h => rw [h]; rfl
    | inr h => rw [h]; rfl
  · intro hv
    unfold DebugBuilder.from_elem_and_parent
    simp only [hv]
    rfl

/-- Counterexample debug element for C4. -/
def c4dbg : XNode := .mk "debug" [("__apid", "7")] []

/-- Counterexample parent for C4: has an accessportV1 child, but none
with __apid 7. -/
def c4par : XNode :=
  .mk "device" [] [c4dbg, .mk "accessportV1" [("__apid", "1"), ("index", "2")] []]

/-- Counterexample for C4: the code's not-found message reads Unable do
find (with a trailing period), not the claimed Unable to find. -/
theorem c4_counterexample :
    DebugBuilder.from_elem_and_parent c4dbg c4par
      = .error "Unable do find Access Port with id 7."
    ∧ "Unable do find Access Port with id 7."
      ≠ "Unable to find Access Port with id 7" :=
  ⟨rfl, by decide⟩

/-- Witness accessportV2 descriptor for C4. -/
def c4ap2 : XNode :=
  .mk "accessportV2" [("__apid", "7"), ("__dp", "0"), ("address", "0xE000EDF0")] []

/-- Witness parent for C4's resolved case. -/
def c4par2 : XNode := .mk "device" [] [c4dbg, c4ap2]

/-- Witness for C4: the V2 descriptor with matching id resolves to
dp = 0 and ap = Address(0xE000EDF0). -/
theorem c4_access_port_resolution_witness :
    (∀ c ∈ c4par2.children, strStartsWith c.tag "accessportV" = true →
      c.tag = "accessportV1" ∨ c.tag = "accessportV2")
    ∧ hasAccessPortChild c4par2 = true
    ∧ attr_nat? c4dbg "__apid" (2 ^ 32) = some 7
    ∧ c4par2.children = [c4dbg] ++ c4ap2 :: []
    ∧ (∀ x ∈ [c4dbg], ¬((x.tag = "accessportV1" ∨ x.tag = "accessportV2")
        ∧ attr_nat? x "__apid" (2 ^ 32) = some 7))
    ∧ (c4ap2.tag = "accessportV1" ∨ c4ap2.tag = "accessportV2")
    ∧ attr_nat? c4ap2 "__apid" (2 ^ 32) = some 7
    ∧ DebugBuilder.from_elem_and_parent c4dbg c4par2 = .ok
        { dp := attr_nat? c4ap2 "__dp" (2 ^ 8),
          ap := if c4ap2.tag = "accessportV1"
            then (attr_nat? c4ap2 "index" (2 ^ 8)).map AccessPort.Index
            else (attr_hex? c4ap2 "address" (2 ^ 64)).map AccessPort.Address,
          address := attr_nat? c4dbg "address" (2 ^ 32),
          svd := c4dbg.attribute "svd",
          name := c4dbg.attribute "Pname",
          unit := attr_nat? c4dbg "Punit" (2 ^ 64),
          default_reset_sequence := c4dbg.attribute "defaultResetSequence" } :=
  ⟨by decide, by decide, by decide, rfl, by decide, by decide, by decide,
    (c4_access_port_resolution c4dbg c4par2 (by decide)).2.2.1 7 [c4dbg] c4ap2 []
      (by decide) (by decide) rfl (by decide) (by decide) (by decide)⟩

/-! Facts about parse_device ignoring variant children (C9). -/

/-- Two elements with equal tag and attributes; children unconstrained. -/
def shallowEq (c c' : XNode) : Prop :=
  c.tag = c'.tag ∧ c.attrs = c'.attrs

/-- Pairwise relation between the children of two device elements: same
tag and attributes, and equal outright unless the tag is variant (a
variant's own children may differ arbitrarily). -/
def variantChildEq (c c' : XNode) : Prop :=
  shallowEq c c' ∧ (c.tag = "variant" ∨ c = c')

theorem attribute_congr {c c' : XNode} (h : c.attrs = c'.attrs) (a : String) :
    c.attribute a = c'.attribute a := by
  unfold XNode.attribute
  rw [h]

theorem attr_nat?_congr {c c' : XNode} (h : c.attrs = c'.attrs) (a : String)
    (bound : Nat) : attr_nat? c a bound = attr_nat? c' a bound := by
  unfold attr_nat?
  rw [attribute_congr h]

theorem attr_hex?_congr {c c' : XNode} (h : c.attrs = c'.attrs) (a : String)
    (bound : Nat) : attr_hex? c a bound = attr_hex? c' a bound := by
  unfold attr_hex?
  rw [attribute_congr h]

theorem from_elem_shallow {c c' : XNode} (h : shallowEq c c') :
    DeviceBuilder.from_elem c = DeviceBuilder.from_elem c' := by
  unfold DeviceBuilder.from_elem
  rw [h.1, attribute_congr h.2, attribute_congr h.2, attribute_congr h.2,
    attribute_congr h.2, attribute_congr h.2]

theorem find?_rel {R : XNode → XNode → Prop} {F G : XNode → Bool}
    (hFG : ∀ a b, R a b → F a = G b) :
    ∀ {l l' : List XNode}, List.Forall₂ R l l' →
      (l.find? F = none ∧ l'.find? G = none)
      ∨ ∃ a b, R a b ∧ l.find? F = some a ∧ l'.find? G = some b := by
  intro l l' hrel
  induction hrel with
  | nil => exact Or.inl ⟨rfl, rfl⟩
  | @cons a b l l' hab hrest ih =>
    by_cases hp : F a = true
    · have hp' : G b = true := (hFG a b hab) ▸ hp
      exact Or.inr ⟨a, b, hab, find?_cons_pos F a l hp, find?_cons_pos G b l' hp'⟩
    · have hpf : F a = false := by simpa using hp
      have hpf' : G b = false := (hFG a b hab) ▸ hpf
      rw [find?_cons_neg F a l hpf, find?_cons_neg G b l' hpf']
      exact ih

theorem from_elem_and_parent_parent_congr (d : XNode) {p p' : XNode}
    (h : List.Forall₂ variantChildEq p.children p'.children) :
    DebugBuilder.from_elem_and_parent d p = DebugBuilder.from_elem_and_parent d p' := by
  have htags : p.children.map (fun c => c.tag) = p'.children.map (fun c => c.tag) :=
    forall₂_map_congr (f := fun c => c.tag) (g := fun c => c.tag)
      (fun a b hab => hab.1.1) h
  have hap : hasAccessPortChild p = hasAccessPortChild p' := by
    unfold hasAccessPortChild
    rw [htags]
  unfold DebugBuilder.from_elem_and_parent
  rw [hap]
  by_cases hv : hasAccessPortChild p' = true
  · simp only [hv, eq_self_iff_true, if_true]
    cases ha : attr_nat d "__apid" (2 ^ 32) with
    | error err => rfl
    | ok apid =>
      rcases find?_rel (R := variantChildEq)
          (F := fun c => strStartsWith c.tag "accessportV"
            && (attr_nat? c "__apid" (2 ^ 32) == some apid))
          (G := fun c => strStartsWith c.tag "accessportV"
            && (attr_nat? c "__apid" (2 ^ 32) == some apid))
          (fun a b hab => by
            simp only [hab.1.1, attr_nat?_congr hab.1.2]) h with
        hnone | ⟨a, b, hab, hfa, hfb⟩
      · simp only [hnone.1, hnone.2]
      · simp only [hfa, hfb, hab.1.1, attr_nat?_congr hab.1.2 "__dp" (2 ^ 8),
          attr_nat?_congr hab.1.2 "index" (2 ^ 8),
          attr_hex?_congr hab.1.2 "address" (2 ^ 64)]
  · have hv' : hasAccessPortChild p' = false := by simpa using hv
    simp only [hv']
    rfl

theorem debugs_from_elem_and_parent_parent_congr (d : XNode) {p p' : XNode}
    (h : List.Forall₂ variantChildEq p.children p'.children) :
    DebugsBuilder.from_elem_and_parent d p = DebugsBuilder.from_elem_and_parent d p' := by
  unfold DebugsBuilder.from_elem_and_parent
  rw [from_elem_and_parent_parent_congr d h]

theorem parse_device_step_congr {e e' : XNode}
    (h : List.Forall₂ variantChildEq e.children e'.children)
    {c c' : XNode} (hcc : variantChildEq c c')
    (acc : DeviceBuilder × List DeviceBuilder) :
    parse_device_step e acc c = parse_device_step e' acc c' := by
  rcases hcc with ⟨⟨htag, hattrs⟩, hvar⟩
  cases hvar with
  | inl hv =>
    have hv' : c'.tag = "variant" := htag.symm.trans hv
    unfold parse_device_step
    rw [hv, hv']
    show (acc.1, acc.2 ++ [DeviceBuilder.from_elem c])
      = (acc.1, acc.2 ++ [DeviceBuilder.from_elem c'])
    rw [from_elem_shallow ⟨htag, hattrs⟩]
  | inr heq =>
    subst heq
    unfold parse_device_step
    rw [debugs_from_elem_and_parent_parent_congr c h]

theorem foldl_step_congr {e e' : XNode}
    (h : List.Forall₂ variantChildEq e.children e'.children) :
    ∀ {l l' : List XNode}, List.Forall₂ variantChildEq l l' →
      ∀ acc, l.foldl (parse_device_step e) acc = l'.foldl (parse_device_step e') acc := by
  intro l l' hrel
  induction hrel with
  | nil => intro acc; rfl
  | cons hab _ ih =>
    intro acc
    rw [List.foldl_cons, List.foldl_cons, parse_device_step_congr h hab acc]
    exact ih _

/-- C9: parse_device reads a variant child only through its tag and
attributes; two device elements that agree on tag, attributes and
children up to the children of variant elements produce identical
device builders. -/
theorem c9_variant_children_ignored (e e' : XNode)
    (ht : e.tag = e'.tag) (ha : e.attrs = e'.attrs)
    (hc : List.Forall₂ variantChildEq e.children e'.children) :
    parse_device e = parse_device e' := by
  unfold parse_device
  rw [from_elem_shallow (show shallowEq e e' from ⟨ht, ha⟩),
    foldl_step_congr hc hc (DeviceBuilder.from_elem e', [])]

/-- Witness device element for C9 whose variant has a memory child. -/
def c9e : XNode :=
  .mk "device" [("Dname", "D"), ("Dvendor", "V")]
    [.mk "processor" [("Dcore", "Cortex-M0")] [],
     .mk "variant" [("Dname", "D-A")]
       [.mk "memory" [("id", "X"), ("start", "0x0"), ("size", "0x10")] []]]

/-- Witness device element for C9 whose variant has no children. -/
def c9e2 : XNode :=
  .mk "device" [("Dname", "D"), ("Dvendor", "V")]
    [.mk "processor" [("Dcore", "Cortex-M0")] [],
     .mk "variant" [("Dname", "D-A")] []]

/-- Witness for C9 at two inputs differing only inside a variant. -/
theorem c9_variant_children_ignored_witness :
    c9e.tag = c9e2.tag ∧ c9e.attrs = c9e2.attrs
    ∧ List.Forall₂ variantChildEq c9e.children c9e2.children
    ∧ parse_device c9e = parse_device c9e2 :=
  ⟨rfl, rfl,
    List.Forall₂.cons (by exact ⟨⟨rfl, rfl⟩, Or.inr rfl⟩)
      (List.Forall₂.cons (by exact ⟨⟨rfl, rfl⟩, Or.inl rfl⟩) List.Forall₂.nil),
    c9_variant_children_ignored c9e c9e2 rfl rfl
      (List.Forall₂.cons (by exact ⟨⟨rfl, rfl⟩, Or.inr rfl⟩)
        (List.Forall₂.cons (by exact ⟨⟨rfl, rfl⟩, Or.inl rfl⟩) List.Forall₂.nil))⟩

end Pdsc
